import Mathlib

/-!
Shallow embedding of `src/scripts/export_data.py`, the season data export
pipeline of this repository.

Remote tables are lists of typed rows (a fetch failure yields an empty
table, exactly as `fetch_all_rows` catches every exception and returns an
empty DataFrame).  The persisted file store is an association list from
output paths to table contents, together with the directory structure the
script inspects with `os.listdir`/`os.path.isdir` (the `GW<n>` folders
under `By Gameweek` and the `<tournament>/GW<n>` folders under
`By Tournament`).  Each section of `main` is a function from store to
store: the loop bodies of sections 1-3 only create directories and write
whole files (they never read the store), so each is modelled as its list
of writes applied in program order; section 4
(`calculate_discrete_gameweek_stats`) reads only `playerstats.csv` files
and writes only `player_gameweek_stats.csv` files, so its writes are
computed from the store it starts from and then applied, which is the
same behaviour because no write target is ever read back in the loop.

Numeric CSV columns are modelled as `Int`; textual identifiers as
`List Char`.
-/

namespace FplExport

/-- A row of the remote `gameweeks` table; the script uses the columns
`id` and `finished` (line 243-244, 262). -/
structure GameweekRow where
  id : Int
  finished : Bool
  deriving DecidableEq

/-- A row of the remote `players` table.  The script copies these rows
verbatim, so every column other than the id is abstracted into `val`. -/
structure PlayerRow where
  id : Int
  val : Int
  deriving DecidableEq

/-- A row of the remote `teams` table, copied verbatim by the script. -/
structure TeamRow where
  id : Int
  val : Int
  deriving DecidableEq

/-- A row of the remote `matches` table; the script reads `match_id` and
`gameweek`, the remaining columns are abstracted into `val`. -/
structure MatchRow where
  match_id : List Char
  gameweek : Int
  val : Int
  deriving DecidableEq

/-- A row of the remote `playermatchstats` table; the script filters it
by `match_id` only. -/
structure PMSRow where
  player_id : Int
  match_id : List Char
  val : Int
  deriving DecidableEq

/-- A row of the remote `playerstats` table.  `names` stands for the
ID_COLS name columns (`first_name`, `second_name`, `web_name`), `snap`
for the SNAPSHOT_COLS values and `cum` for the CUMULATIVE_COLS values,
positionally in the order the script declares them. -/
structure StatRow where
  id : Int
  gw : Int
  names : List (List Char)
  snap : List Int
  cum : List Int
  deriving DecidableEq

/-- A row of the derived `player_gameweek_stats.csv` output: the script
selects ID_COLS + SNAPSHOT_COLS + CUMULATIVE_COLS (the `gw` column is not
among them). -/
structure DeltaRow where
  id : Int
  names : List (List Char)
  snap : List Int
  cum : List Int
  deriving DecidableEq

/-- The contents of one persisted file, tagged by table kind. -/
inductive TableData where
  | gameweeks (rows : List GameweekRow)
  | players (rows : List PlayerRow)
  | teams (rows : List TeamRow)
  | playerstats (rows : List StatRow)
  | matches (rows : List MatchRow)
  | pms (rows : List PMSRow)
  | delta (rows : List DeltaRow)
  deriving DecidableEq

/-- The four season-root master files written in section 1 of `main`. -/
inductive MasterFile where
  | gwSummaries
  | players
  | playerstats
  | teams
  deriving DecidableEq

/-- The per-folder files written in sections 2 and 3 of `main`, plus the
derived `player_gameweek_stats.csv` written by
`calculate_discrete_gameweek_stats`. -/
inductive GwFile where
  | matches
  | playermatchstats
  | fixtures
  | players
  | teams
  | playerstats
  | pgwstats
  deriving DecidableEq

/-- An output path inside the season directory: a master file, a file in
`By Gameweek/GW<gw>/`, or a file in `By Tournament/<name>/GW<gw>/`. -/
inductive OutPath where
  | master (f : MasterFile)
  | byGW (gw : Int) (f : GwFile)
  | byTour (name : List Char) (gw : Int) (f : GwFile)
  deriving DecidableEq

abbrev Files := List (OutPath × TableData)

abbrev FileWrite := OutPath × TableData

/-- Read a file from the store (first binding wins, as in a path map). -/
def getFile : Files → OutPath → Option TableData
  | [], _ => none
  | e :: rest, p => if e.1 = p then some e.2 else getFile rest p

/-- Write a whole file, replacing the existing binding in place (this is
`DataFrame.to_csv`: an unconditional whole-file overwrite). -/
def setFile : Files → OutPath → TableData → Files
  | [], p, d => [(p, d)]
  | e :: rest, p, d => if e.1 = p then (p, d) :: rest else e :: setFile rest p d

/-- Apply a sequence of whole-file writes in order. -/
def applyWrites (fs : Files) (w : List FileWrite) : Files :=
  w.foldl (fun a e => setFile a e.1 e.2) fs

/-- The value left at path `p` after the writes `w`, if any write hits `p`
(the last one wins). -/
def lastWrite (p : OutPath) : List FileWrite → Option TableData
  | [] => none
  | e :: rest =>
      match lastWrite p rest with
      | some d => some d
      | none => if e.1 = p then some e.2 else none

/-- `os.makedirs(..., exist_ok=True)` on a directory list. -/
def addDir {α : Type} [DecidableEq α] (l : List α) (x : α) : List α :=
  if x ∈ l then l else l ++ [x]

/-- Create every directory of `xs`, in order. -/
def addDirs {α : Type} [DecidableEq α] (l : List α) (xs : List α) : List α :=
  xs.foldl addDir l

/-- The persisted state the script interacts with: the files, the `GW<n>`
directories under `By Gameweek`, the `(<tournament>, GW<n>)` directories
under `By Tournament`, and whether those two roots exist at all (the
script probes them with `os.path.isdir`). -/
structure Store where
  files : Files
  gwDirs : List Int
  tourDirs : List (List Char × Int)
  byGwRoot : Bool
  byTourRoot : Bool

/-- The six remote tables as fetched at the start of `main`; a failed
fetch is indistinguishable from an empty table (`fetch_all_rows` returns
an empty DataFrame on any exception). -/
structure Remote where
  gameweeks_df : List GameweekRow
  players_df : List PlayerRow
  playerstats_df : List StatRow
  teams_df : List TeamRow
  matches_df : List MatchRow
  playermatchstats_df : List PMSRow

/-- `TOURNAMENT_NAME_MAP` (lines 13-21), in Python dict insertion order. -/
def TOURNAMENT_NAME_MAP : List (List Char × List Char) :=
  [("friendly".data, "Friendlies".data),
   ("premier-league".data, "Premier League".data),
   ("champions-league".data, "Champions League".data),
   ("prem".data, "Premier League".data),
   ("community-shield".data, "Community Shield".data),
   ("uefa-super-cup".data, "Uefa Super Cup".data),
   ("efl-cup".data, "EFL Cup".data)]

/-- `extract_tournament_slug` (lines 209-214): return the first key of
`TOURNAMENT_NAME_MAP` that occurs as a substring of the match id, in dict
insertion order.  Python `slug in match_id` is substring containment. -/
def extract_tournament_slug (match_id : List Char) : Option (List Char) :=
  (TOURNAMENT_NAME_MAP.map Prod.fst).find? (fun slug => decide (slug <:+: match_id))

/-- The `tournament` column added to `matches_df` at line 215. -/
def mTour (m : MatchRow) : Option (List Char) :=
  extract_tournament_slug m.match_id

/-- The tournament folder name for a slug:
`TOURNAMENT_NAME_MAP.get(slug, slug.replace('-', ' ').title())`
(line 236).  Every slug reaching this point is a key of the map (it was
produced by `extract_tournament_slug`), so the default branch is dead
code; it is modelled as returning the slug itself. -/
def tournamentFolder (slug : List Char) : List Char :=
  match TOURNAMENT_NAME_MAP.find? (fun kv => decide (kv.1 = slug)) with
  | some kv => kv.2
  | none => slug

/-- Line 219: drop pre-season (`gameweek == 0`) and friendly matches. -/
def filteredMatches (r : Remote) : List MatchRow :=
  r.matches_df.filter (fun m =>
    decide (m.gameweek ≠ 0) && decide (mTour m ≠ some "friendly".data))

/-- Keep the first occurrence of each element, in order: this is pandas
`Series.unique()`. -/
def uniqFirstAux {α : Type} [DecidableEq α] (seen : List α) : List α → List α
  | [] => []
  | a :: l => if a ∈ seen then uniqFirstAux seen l else a :: uniqFirstAux (a :: seen) l

/-- pandas `unique()`: first occurrences in order of appearance. -/
def uniqFirst {α : Type} [DecidableEq α] (l : List α) : List α :=
  uniqFirstAux [] l

/-- Python `sorted(xs.unique())` on integer ids. -/
def sortedUnique (l : List Int) : List Int :=
  List.insertionSort (· ≤ ·) (uniqFirst l)

/-- Line 234: the distinct non-null tournament slugs of the filtered
matches, in order of first appearance. -/
def uniqueTournaments (r : Remote) : List (List Char) :=
  uniqFirst ((filteredMatches r).filterMap mTour)

/-- Line 239: the filtered matches of one tournament slug. -/
def tournamentMatches (r : Remote) (slug : List Char) : List MatchRow :=
  (filteredMatches r).filter (fun m => decide (mTour m = some slug))

/-- Line 240: `sorted(tournament_matches['gameweek'].dropna().unique())`. -/
def gwsInTournament (r : Remote) (slug : List Char) : List Int :=
  sortedUnique ((tournamentMatches r slug).map (fun m => m.gameweek))

/-- Line 262: `sorted(gameweeks_df['id'].dropna().unique())`. -/
def gwIdList (r : Remote) : List Int :=
  sortedUnique (r.gameweeks_df.map (fun g => g.id))

/-- Section 1 of `main` (lines 226-229): the four master files, written
unconditionally on every run. -/
def masterWrites (r : Remote) : List FileWrite :=
  [(OutPath.master MasterFile.gwSummaries, TableData.gameweeks r.gameweeks_df),
   (OutPath.master MasterFile.players, TableData.players r.players_df),
   (OutPath.master MasterFile.playerstats, TableData.playerstats r.playerstats_df),
   (OutPath.master MasterFile.teams, TableData.teams r.teams_df)]

/-- The six files written for one tournament folder and one gameweek
(lines 249-258).  `is_finished` is looked up at line 244 and never used:
the writes are unconditional. -/
def tournamentGwWrites (r : Remote) (slug : List Char) (gw : Int) : List FileWrite :=
  let folder := tournamentFolder slug
  let gwm := (tournamentMatches r slug).filter (fun m => decide (m.gameweek = gw))
  let mids : List (List Char) := uniqFirst (gwm.map (fun m => m.match_id))
  let pmsRows := r.playermatchstats_df.filter (fun x => decide (x.match_id ∈ mids))
  [(OutPath.byTour folder gw GwFile.matches, TableData.matches gwm),
   (OutPath.byTour folder gw GwFile.playermatchstats, TableData.pms pmsRows),
   (OutPath.byTour folder gw GwFile.fixtures, TableData.matches gwm),
   (OutPath.byTour folder gw GwFile.players, TableData.players r.players_df),
   (OutPath.byTour folder gw GwFile.teams, TableData.teams r.teams_df),
   (OutPath.byTour folder gw GwFile.playerstats,
     TableData.playerstats (r.playerstats_df.filter (fun ps => decide (ps.gw = gw))))]

/-- The gameweeks of a tournament that the loop at line 242 actually
processes: those present in the remote `gameweeks` table (line 243). -/
def tournamentGwList (r : Remote) (slug : List Char) : List Int :=
  (gwsInTournament r slug).filter (fun gw =>
    decide (gw ∈ r.gameweeks_df.map (fun g => g.id)))

/-- Section 2 of `main` (lines 233-258): all `By Tournament` file writes,
in program order. -/
def byTournamentWrites (r : Remote) : List FileWrite :=
  (uniqueTournaments r).flatMap (fun slug =>
    (tournamentGwList r slug).flatMap (tournamentGwWrites r slug))

/-- The `By Tournament/<name>/GW<gw>` directories created by section 2
(line 247), in creation order. -/
def tourDirList (r : Remote) : List (List Char × Int) :=
  (uniqueTournaments r).flatMap (fun slug =>
    (tournamentGwList r slug).map (fun gw => (tournamentFolder slug, gw)))

/-- The six files written for one `By Gameweek/GW<gw>` folder
(lines 274-279). -/
def gameweekWritesAt (r : Remote) (gw : Int) : List FileWrite :=
  let gwm := (filteredMatches r).filter (fun m => decide (m.gameweek = gw))
  let mids : List (List Char) := uniqFirst (gwm.map (fun m => m.match_id))
  let pmsRows := r.playermatchstats_df.filter (fun x => decide (x.match_id ∈ mids))
  [(OutPath.byGW gw GwFile.matches, TableData.matches gwm),
   (OutPath.byGW gw GwFile.playermatchstats, TableData.pms pmsRows),
   (OutPath.byGW gw GwFile.fixtures, TableData.matches gwm),
   (OutPath.byGW gw GwFile.players, TableData.players r.players_df),
   (OutPath.byGW gw GwFile.teams, TableData.teams r.teams_df),
   (OutPath.byGW gw GwFile.playerstats,
     TableData.playerstats (r.playerstats_df.filter (fun ps => decide (ps.gw = gw))))]

/-- The gameweeks processed by the loop at line 264; the membership check
at line 265 repeats line 262's source and never skips anything, but it is
kept for faithfulness. -/
def processedGwList (r : Remote) : List Int :=
  (gwIdList r).filter (fun gw => decide (gw ∈ r.gameweeks_df.map (fun g => g.id)))

/-- Section 3 of `main` (lines 261-279): all `By Gameweek` file writes,
in program order. -/
def byGameweekWrites (r : Remote) : List FileWrite :=
  (processedGwList r).flatMap (gameweekWritesAt r)

/-- Section 1 of `main` applied to the store. -/
def update_master_files (r : Remote) (s : Store) : Store :=
  { s with files := applyWrites s.files (masterWrites r) }

/-- Section 2 of `main` applied to the store: directories are created and
the files written; nothing is read back. -/
def populate_by_tournament (r : Remote) (s : Store) : Store :=
  { s with
    files := applyWrites s.files (byTournamentWrites r)
    tourDirs := addDirs s.tourDirs (tourDirList r)
    byTourRoot := s.byTourRoot || !(tourDirList r).isEmpty }

/-- Section 3 of `main` applied to the store. -/
def populate_by_gameweek (r : Remote) (s : Store) : Store :=
  { s with
    files := applyWrites s.files (byGameweekWrites r)
    gwDirs := addDirs s.gwDirs (processedGwList r)
    byGwRoot := s.byGwRoot || !(processedGwList r).isEmpty }

/-- The baseline projection used for the first gameweek (lines 104-108,
160-163): the current cumulative row restricted to
ID_COLS + SNAPSHOT_COLS + CUMULATIVE_COLS. -/
def toDeltaRow (c : StatRow) : DeltaRow :=
  { id := c.id, names := c.names, snap := c.snap, cum := c.cum }

/-- The pandas left merge on `id` of lines 119 and 172: every current row
is paired with every previous row sharing its id, or with `none` when no
previous row matches. -/
def mergeLeft (cur prev : List StatRow) : List (StatRow × Option StatRow) :=
  cur.flatMap (fun c =>
    match prev.filter (fun p => decide (p.id = c.id)) with
    | [] => [(c, none)]
    | ps => ps.map (fun p => (c, some p)))

/-- One output row of the delta computation (lines 121-128): every
cumulative column is diffed against the previous row (`fillna(0)` makes a
missing previous row a zero baseline, so the difference is the current
value unchanged); name and snapshot columns are taken from the current
row; the difference is not clamped. -/
def deltaRowOf : StatRow × Option StatRow → DeltaRow
  | (c, none) => toDeltaRow c
  | (c, some p) =>
      { id := c.id, names := c.names, snap := c.snap,
        cum := c.cum.zipWith (fun a b => a - b) p.cum }

/-- The discrete-stats table derived from the current and previous
cumulative snapshots (lines 118-128 and 171-181). -/
def calcDelta (cur prev : List StatRow) : List DeltaRow :=
  (mergeLeft cur prev).map deltaRowOf

/-- One iteration of the loop at line 95 on the enumerated, sorted
`GW<n>` directory list `dirs`: `e.1` is the loop index `i`, `e.2` the
gameweek number of the directory.  Index 0 is the baseline; every later
index is diffed against the directory before it in the list; a missing
`playerstats.csv` (current or previous) skips the directory. -/
def part1Step (s : Store) (dirs : List Int) (e : Nat × Int) : Option FileWrite :=
  match getFile s.files (OutPath.byGW e.2 GwFile.playerstats) with
  | some (TableData.playerstats cur) =>
      if e.1 = 0 then
        some (OutPath.byGW e.2 GwFile.pgwstats, TableData.delta (cur.map toDeltaRow))
      else
        match dirs[e.1 - 1]? with
        | some gp =>
            match getFile s.files (OutPath.byGW gp GwFile.playerstats) with
            | some (TableData.playerstats prev) =>
                some (OutPath.byGW e.2 GwFile.pgwstats, TableData.delta (calcDelta cur prev))
            | _ => none
        | none => none
  | _ => none

/-- Part 1 of `calculate_discrete_gameweek_stats` (lines 87-132): iterate
over the sorted `GW<n>` directories.  Only `player_gameweek_stats.csv`
files are written. -/
def part1Writes (s : Store) : List FileWrite :=
  (List.insertionSort (· ≤ ·) s.gwDirs).enum.filterMap
    (part1Step s (List.insertionSort (· ≤ ·) s.gwDirs))

/-- One iteration of the loop at line 151 for tournament folder `t` and
gameweek directory `gw`: gameweek 1 is a baseline and every other
gameweek is diffed against the main `By Gameweek/GW<n-1>/playerstats.csv`
(line 166); if the current or baseline file is missing the gameweek is
skipped. -/
def part2Step (s : Store) (t : List Char) (gw : Int) : Option FileWrite :=
  match getFile s.files (OutPath.byTour t gw GwFile.playerstats) with
  | some (TableData.playerstats cur) =>
      if gw = 1 then
        some (OutPath.byTour t gw GwFile.pgwstats, TableData.delta (cur.map toDeltaRow))
      else
        match getFile s.files (OutPath.byGW (gw - 1) GwFile.playerstats) with
        | some (TableData.playerstats prev) =>
            some (OutPath.byTour t gw GwFile.pgwstats, TableData.delta (calcDelta cur prev))
        | _ => none
  | _ => none

/-- Part 2 of `calculate_discrete_gameweek_stats` (lines 134-185): every
tournament folder and each of its sorted `GW<n>` directories; skipped
entirely when the `By Tournament` root does not exist (line 136). -/
def part2Writes (s : Store) : List FileWrite :=
  if s.byTourRoot then
    (uniqFirst (s.tourDirs.map Prod.fst)).flatMap (fun t =>
      (List.insertionSort (· ≤ ·)
          ((s.tourDirs.filter (fun e => decide (e.1 = t))).map Prod.snd)).filterMap
        (part2Step s t))
  else []

/-- The writes of `calculate_discrete_gameweek_stats`: nothing when the
`By Gameweek` root is missing (line 83), otherwise part 1 then part 2. -/
def calcWrites (s : Store) : List FileWrite :=
  if s.byGwRoot then part1Writes s ++ part2Writes s else []

/-- Section 4 of `main`: `calculate_discrete_gameweek_stats` (lines
73-185) applied to the store.  The loops read only `playerstats.csv`
files and write only `player_gameweek_stats.csv` files, so every read
sees the store the function started from. -/
def calculate_discrete_gameweek_stats (s : Store) : Store :=
  { s with files := applyWrites s.files (calcWrites s) }

/-- `main` (lines 188-285): fetch everything, abort with exit code 1 when
an essential table is empty (lines 203-206), then run sections 1-4. -/
def runExport (r : Remote) (fs : Store) : Except Nat Store :=
  if r.gameweeks_df.isEmpty || r.players_df.isEmpty || r.playerstats_df.isEmpty
      || r.teams_df.isEmpty || r.matches_df.isEmpty then
    Except.error 1
  else
    Except.ok (calculate_discrete_gameweek_stats
      (populate_by_gameweek r (populate_by_tournament r (update_master_files r fs))))

/-- The store after a run: unchanged when the run aborted (the abort
happens before any write). -/
def runOutput (r : Remote) (fs : Store) : Store :=
  match runExport r fs with
  | Except.ok s => s
  | Except.error _ => fs

/-- The empty persisted state (first ever run). -/
def emptyStore : Store :=
  { files := [], gwDirs := [], tourDirs := [], byGwRoot := false, byTourRoot := false }

/-! ### Store infrastructure lemmas -/

theorem getFile_setFile (fs : Files) (q p : OutPath) (d : TableData) :
    getFile (setFile fs q d) p = if q = p then some d else getFile fs p := by
  induction fs with
  | nil =>
    by_cases h : q = p <;> simp [getFile, setFile, h]
  | cons e rest ih =>
    by_cases h1 : e.1 = q
    · by_cases h2 : q = p
      · subst h2
        simp [getFile, setFile, h1]
      · have h3 : e.1 ≠ p := by rw [h1]; exact h2
        simp [getFile, setFile, h1, h2, h3]
    · by_cases h2 : q = p
      · subst h2
        simp [getFile, setFile, h1, ih]
      · have h4 : ¬p = q := fun h => h2 h.symm
        by_cases h3 : e.1 = p <;> simp [getFile, setFile, h1, h2, h3, h4, ih]

theorem applyWrites_nil (fs : Files) : applyWrites fs [] = fs := rfl

theorem applyWrites_cons (fs : Files) (e : FileWrite) (w : List FileWrite) :
    applyWrites fs (e :: w) = applyWrites (setFile fs e.1 e.2) w := rfl

theorem applyWrites_append (fs : Files) (w1 w2 : List FileWrite) :
    applyWrites fs (w1 ++ w2) = applyWrites (applyWrites fs w1) w2 := by
  simp [applyWrites, List.foldl_append]

theorem lastWrite_nil (p : OutPath) : lastWrite p [] = none := rfl

theorem lastWrite_cons (p : OutPath) (e : FileWrite) (w : List FileWrite) :
    lastWrite p (e :: w)
      = match lastWrite p w with
        | some d => some d
        | none => if e.1 = p then some e.2 else none := rfl

/-- The value at `p` after a write sequence is the last write to `p` when
one exists, and the old value otherwise. -/
theorem getFile_applyWrites (fs : Files) (w : List FileWrite) (p : OutPath) :
    getFile (applyWrites fs w) p
      = match lastWrite p w with
        | some d => some d
        | none => getFile fs p := by
  induction w generalizing fs with
  | nil => simp [applyWrites, lastWrite]
  | cons e rest ih =>
    rw [applyWrites_cons, ih, lastWrite_cons]
    cases hr : lastWrite p rest with
    | some d => rfl
    | none =>
      rw [getFile_setFile]
      by_cases h : e.1 = p <;> simp [h]

theorem lastWrite_append (p : OutPath) (w1 w2 : List FileWrite) :
    lastWrite p (w1 ++ w2)
      = match lastWrite p w2 with
        | some d => some d
        | none => lastWrite p w1 := by
  induction w1 with
  | nil =>
    rw [List.nil_append]
    cases h : lastWrite p w2 <;> simp [lastWrite, h]
  | cons e rest ih =>
    rw [List.cons_append, lastWrite_cons, ih, lastWrite_cons]
    cases lastWrite p w2 <;> cases lastWrite p rest <;> rfl

theorem lastWrite_eq_none (p : OutPath) (w : List FileWrite)
    (h : ∀ e ∈ w, e.1 ≠ p) : lastWrite p w = none := by
  induction w with
  | nil => rfl
  | cons e rest ih =>
    rw [lastWrite_cons, ih (fun x hx => h x (List.mem_cons_of_mem e hx))]
    simp [h e (List.mem_cons_self e rest)]

theorem lastWrite_mem (p : OutPath) (w : List FileWrite) (d : TableData)
    (h : lastWrite p w = some d) : ∃ e ∈ w, e.1 = p ∧ e.2 = d := by
  induction w with
  | nil => exact absurd h (by simp [lastWrite])
  | cons e rest ih =>
    rw [lastWrite_cons] at h
    cases hr : lastWrite p rest with
    | some d2 =>
      rw [hr] at h
      obtain ⟨e2, he2, hp, hd⟩ := ih (hr.trans (by injection h; simp [*]))
      exact ⟨e2, List.mem_cons_of_mem e he2, hp, hd⟩
    | none =>
      rw [hr] at h
      by_cases hp : e.1 = p
      · rw [if_pos hp] at h
        exact ⟨e, List.mem_cons_self e rest, hp, by injection h⟩
      · rw [if_neg hp] at h
        exact absurd h (by simp)

/-- If a write sequence never touches `p`, the value at `p` is unchanged. -/
theorem getFile_applyWrites_frame (fs : Files) (w : List FileWrite) (p : OutPath)
    (h : ∀ e ∈ w, e.1 ≠ p) : getFile (applyWrites fs w) p = getFile fs p := by
  rw [getFile_applyWrites, lastWrite_eq_none p w h]

/-- The value at `p` after a write sequence is either the old value or the
payload of one of the writes to `p`. -/
theorem getFile_applyWrites_cases (fs : Files) (w : List FileWrite) (p : OutPath) :
    getFile (applyWrites fs w) p = getFile fs p
      ∨ ∃ e ∈ w, e.1 = p ∧ getFile (applyWrites fs w) p = some e.2 := by
  rw [getFile_applyWrites]
  cases hl : lastWrite p w with
  | none => exact Or.inl rfl
  | some d =>
    obtain ⟨e, he, hp, hd⟩ := lastWrite_mem p w d hl
    exact Or.inr ⟨e, he, hp, by simp [hd]⟩

/-- In a flatMap of per-key write blocks where the key `x` occurs once and
no other key's block touches `p`, the last write to `p` is the last write
of `x`'s block. -/
theorem lastWrite_flatMap_block {β : Type} (l : List β) (B : β → List FileWrite)
    (x : β) (p : OutPath) (hnd : l.Nodup) (hx : x ∈ l)
    (hother : ∀ y ∈ l, y ≠ x → ∀ e ∈ B y, e.1 ≠ p) :
    lastWrite p (l.flatMap B) = lastWrite p (B x) := by
  induction l with
  | nil => exact absurd hx (List.not_mem_nil x)
  | cons y rest ih =>
    rw [List.flatMap_cons, lastWrite_append]
    by_cases hxy : x = y
    · have hnone : lastWrite p (rest.flatMap B) = none := by
        apply lastWrite_eq_none
        intro e he
        obtain ⟨z, hz, hez⟩ := List.mem_flatMap.mp he
        have hzx : z ≠ x := by
          intro h
          exact (List.nodup_cons.mp hnd).1 (by rw [← hxy, ← h]; exact hz)
        exact hother z (List.mem_cons_of_mem y hz) hzx e hez
      rw [hnone, hxy]
    · have hxrest : x ∈ rest := by
        rcases List.mem_cons.mp hx with h | h
        · exact absurd h hxy
        · exact h
      have hyx : y ≠ x := fun h => hxy h.symm
      have hynone : lastWrite p (B y) = none :=
        lastWrite_eq_none p (B y) (hother y (List.mem_cons_self y rest) hyx)
      rw [ih (List.nodup_cons.mp hnd).2 hxrest
        (fun z hz hzx e he => hother z (List.mem_cons_of_mem y hz) hzx e he)]
      cases lastWrite p (B x) <;> simp [hynone]

/-- Same as `lastWrite_flatMap_block` for a filterMap of optional writes. -/
theorem lastWrite_filterMap_block {β : Type} (l : List β) (f : β → Option FileWrite)
    (x : β) (p : OutPath) (hnd : l.Nodup) (hx : x ∈ l)
    (hother : ∀ y ∈ l, y ≠ x → ∀ e, f y = some e → e.1 ≠ p) :
    lastWrite p (l.filterMap f)
      = match f x with
        | some e => if e.1 = p then some e.2 else none
        | none => none := by
  induction l with
  | nil => exact absurd hx (List.not_mem_nil x)
  | cons y rest ih =>
    by_cases hxy : x = y
    · have hnone : lastWrite p (rest.filterMap f) = none := by
        apply lastWrite_eq_none
        intro e he
        obtain ⟨z, hz, hez⟩ := List.mem_filterMap.mp he
        have hzx : z ≠ x := by
          intro h
          exact (List.nodup_cons.mp hnd).1 (by rw [← hxy, ← h]; exact hz)
        exact hother z (List.mem_cons_of_mem y hz) hzx e hez
      rw [← hxy]
      cases hf : f x with
      | none =>
        simp only [List.filterMap_cons, hf]
        exact hnone
      | some e =>
        simp only [List.filterMap_cons, hf, lastWrite_cons, hnone]
    · have hxrest : x ∈ rest := by
        rcases List.mem_cons.mp hx with h | h
        · exact absurd h hxy
        · exact h
      have hyx : y ≠ x := fun h => hxy h.symm
      have ih2 := ih (List.nodup_cons.mp hnd).2 hxrest
        (fun z hz hzx e he => hother z (List.mem_cons_of_mem y hz) hzx e he)
      cases hf : f y with
      | none =>
        simp only [List.filterMap_cons, hf]
        exact ih2
      | some e =>
        have hep : e.1 ≠ p := hother y (List.mem_cons_self y rest) hyx e hf
        simp only [List.filterMap_cons, hf, lastWrite_cons, ih2]
        cases f x with
        | none => simp [hep]
        | some e2 =>
          by_cases h2 : e2.1 = p <;> simp [h2, hep]

/-! ### Directory and uniqueness helper lemmas -/

theorem mem_addDirs_left {α : Type} [DecidableEq α] (xs : List α) :
    ∀ l (x : α), x ∈ l → x ∈ addDirs l xs := by
  induction xs with
  | nil => exact fun l x h => h
  | cons y rest ih =>
    intro l x h
    show x ∈ addDirs (addDir l y) rest
    apply ih
    unfold addDir
    by_cases hy : y ∈ l
    · rw [if_pos hy]; exact h
    · rw [if_neg hy]; exact List.mem_append_left _ h

theorem mem_addDirs_right {α : Type} [DecidableEq α] (xs : List α) :
    ∀ l (x : α), x ∈ xs → x ∈ addDirs l xs := by
  induction xs with
  | nil => exact fun l x h => absurd h (List.not_mem_nil x)
  | cons y rest ih =>
    intro l x h
    show x ∈ addDirs (addDir l y) rest
    rcases List.mem_cons.mp h with hxy | hxrest
    · apply mem_addDirs_left
      subst hxy
      unfold addDir
      by_cases hy : x ∈ l
      · rw [if_pos hy]; exact hy
      · rw [if_neg hy]
        exact List.mem_append_right _ (List.mem_singleton.mpr rfl)
    · exact ih _ x hxrest

theorem addDirs_eq_self {α : Type} [DecidableEq α] (xs : List α) :
    ∀ l : List α, (∀ x ∈ xs, x ∈ l) → addDirs l xs = l := by
  induction xs with
  | nil => exact fun l _ => rfl
  | cons y rest ih =>
    intro l h
    show addDirs (addDir l y) rest = l
    rw [addDir, if_pos (h y (List.mem_cons_self y rest))]
    exact ih l (fun x hx => h x (List.mem_cons_of_mem y hx))

theorem mem_uniqFirstAux {α : Type} [DecidableEq α] (seen l : List α) (x : α) :
    x ∈ uniqFirstAux seen l ↔ x ∈ l ∧ x ∉ seen := by
  induction l generalizing seen with
  | nil => simp [uniqFirstAux]
  | cons a rest ih =>
    by_cases ha : a ∈ seen
    · rw [uniqFirstAux, if_pos ha, ih]
      constructor
      · rintro ⟨h1, h2⟩
        exact ⟨List.mem_cons_of_mem a h1, h2⟩
      · rintro ⟨h1, h2⟩
        rcases List.mem_cons.mp h1 with hxa | hxr
        · exact absurd (hxa ▸ ha) h2
        · exact ⟨hxr, h2⟩
    · rw [uniqFirstAux, if_neg ha]
      constructor
      · intro h
        rcases List.mem_cons.mp h with hxa | hxr
        · exact ⟨hxa ▸ List.mem_cons_self a rest, hxa ▸ ha⟩
        · obtain ⟨h1, h2⟩ := (ih (a :: seen)).mp hxr
          exact ⟨List.mem_cons_of_mem a h1,
            fun hs => h2 (List.mem_cons_of_mem a hs)⟩
      · rintro ⟨h1, h2⟩
        rcases List.mem_cons.mp h1 with hxa | hxr
        · exact hxa ▸ List.mem_cons_self a _
        · by_cases hxa : x = a
          · exact hxa ▸ List.mem_cons_self a _
          · exact List.mem_cons_of_mem a ((ih (a :: seen)).mpr
              ⟨hxr, by simp [hxa, h2]⟩)

theorem mem_uniqFirst {α : Type} [DecidableEq α] (l : List α) (x : α) :
    x ∈ uniqFirst l ↔ x ∈ l := by
  rw [uniqFirst, mem_uniqFirstAux]
  simp

theorem nodup_uniqFirstAux {α : Type} [DecidableEq α] (seen l : List α) :
    (uniqFirstAux seen l).Nodup := by
  induction l generalizing seen with
  | nil => exact List.nodup_nil
  | cons a rest ih =>
    by_cases ha : a ∈ seen
    · rw [uniqFirstAux, if_pos ha]
      exact ih seen
    · rw [uniqFirstAux, if_neg ha]
      refine List.nodup_cons.mpr ⟨?_, ih (a :: seen)⟩
      intro hmem
      exact ((mem_uniqFirstAux (a :: seen) rest a).mp hmem).2
        (List.mem_cons_self a seen)

theorem nodup_uniqFirst {α : Type} [DecidableEq α] (l : List α) :
    (uniqFirst l).Nodup :=
  nodup_uniqFirstAux [] l

theorem mem_sortedUnique (l : List Int) (x : Int) :
    x ∈ sortedUnique l ↔ x ∈ l := by
  rw [sortedUnique, List.mem_insertionSort, mem_uniqFirst]

theorem nodup_sortedUnique (l : List Int) : (sortedUnique l).Nodup :=
  ((List.perm_insertionSort (· ≤ ·) (uniqFirst l)).nodup_iff).mpr (nodup_uniqFirst l)

/-! ### Shape of the writes performed by each section of the run -/

/-- Whether a path is a derived `player_gameweek_stats.csv` file: these
are the only paths `calculate_discrete_gameweek_stats` writes, and no
other section writes them. -/
def isPgw : OutPath → Bool
  | OutPath.byGW _ GwFile.pgwstats => true
  | OutPath.byTour _ _ GwFile.pgwstats => true
  | _ => false

theorem part1Step_shape (s : Store) (dirs : List Int) (a : Nat × Int) (w : FileWrite)
    (h : part1Step s dirs a = some w) :
    ∃ rows, w = (OutPath.byGW a.2 GwFile.pgwstats, TableData.delta rows) := by
  unfold part1Step at h
  split at h
  · split at h
    · exact ⟨_, (Option.some.inj h).symm⟩
    · split at h
      · split at h
        · exact ⟨_, (Option.some.inj h).symm⟩
        · exact absurd h (by simp)
      · exact absurd h (by simp)
  · exact absurd h (by simp)

theorem part2Step_shape (s : Store) (t : List Char) (gw : Int) (w : FileWrite)
    (h : part2Step s t gw = some w) :
    ∃ rows, w = (OutPath.byTour t gw GwFile.pgwstats, TableData.delta rows) := by
  unfold part2Step at h
  split at h
  · split at h
    · exact ⟨_, (Option.some.inj h).symm⟩
    · split at h
      · exact ⟨_, (Option.some.inj h).symm⟩
      · exact absurd h (by simp)
  · exact absurd h (by simp)

theorem part1Writes_shape (s : Store) :
    ∀ e ∈ part1Writes s, ∃ g rows,
      e = (OutPath.byGW g GwFile.pgwstats, TableData.delta rows) := by
  intro e he
  simp only [part1Writes] at he
  obtain ⟨a, _, hfa⟩ := List.mem_filterMap.mp he
  obtain ⟨rows, rfl⟩ := part1Step_shape s _ a e hfa
  exact ⟨_, _, rfl⟩

theorem part2Writes_shape (s : Store) :
    ∀ e ∈ part2Writes s, ∃ t g rows,
      e = (OutPath.byTour t g GwFile.pgwstats, TableData.delta rows) := by
  intro e he
  simp only [part2Writes] at he
  split at he
  · obtain ⟨t, _, he2⟩ := List.mem_flatMap.mp he
    obtain ⟨gw, _, hfa⟩ := List.mem_filterMap.mp he2
    obtain ⟨rows, rfl⟩ := part2Step_shape s t gw e hfa
    exact ⟨_, _, _, rfl⟩
  · exact absurd he (List.not_mem_nil e)

theorem calcWrites_shape (s : Store) :
    ∀ e ∈ calcWrites s, isPgw e.1 = true ∧ ∃ rows, e.2 = TableData.delta rows := by
  intro e he
  rw [calcWrites] at he
  split at he
  · rcases List.mem_append.mp he with h | h
    · obtain ⟨g, rows, rfl⟩ := part1Writes_shape s e h
      exact ⟨rfl, rows, rfl⟩
    · obtain ⟨t, g, rows, rfl⟩ := part2Writes_shape s e h
      exact ⟨rfl, rows, rfl⟩
  · exact absurd he (List.not_mem_nil e)

theorem calcWrites_avoid (s : Store) (p : OutPath) (hp : isPgw p = false) :
    ∀ e ∈ calcWrites s, e.1 ≠ p := by
  intro e he h
  have := (calcWrites_shape s e he).1
  rw [h, hp] at this
  exact Bool.false_ne_true this

/-- The `By Gameweek` block of one gameweek writes only inside its own
`GW<gw>` folder, and never the derived stats file. -/
theorem gameweekWritesAt_paths (r : Remote) (gw : Int) :
    ∀ e ∈ gameweekWritesAt r gw, ∃ f, e.1 = OutPath.byGW gw f ∧ f ≠ GwFile.pgwstats := by
  intro e he
  simp only [gameweekWritesAt, List.mem_cons, List.not_mem_nil, or_false] at he
  rcases he with rfl | rfl | rfl | rfl | rfl | rfl <;> exact ⟨_, rfl, by simp⟩

/-- The `By Tournament` block of one (slug, gameweek) pair writes only
inside that tournament folder's `GW<gw>` directory. -/
theorem tournamentGwWrites_paths (r : Remote) (slug : List Char) (gw : Int) :
    ∀ e ∈ tournamentGwWrites r slug gw,
      ∃ f, e.1 = OutPath.byTour (tournamentFolder slug) gw f ∧ f ≠ GwFile.pgwstats := by
  intro e he
  simp only [tournamentGwWrites, List.mem_cons, List.not_mem_nil, or_false] at he
  rcases he with rfl | rfl | rfl | rfl | rfl | rfl <;> exact ⟨_, rfl, by simp⟩

theorem masterWrites_paths (r : Remote) :
    ∀ e ∈ masterWrites r, ∃ f, e.1 = OutPath.master f := by
  intro e he
  simp only [masterWrites, List.mem_cons, List.not_mem_nil, or_false] at he
  rcases he with rfl | rfl | rfl | rfl <;> exact ⟨_, rfl⟩

theorem byGameweekWrites_paths (r : Remote) :
    ∀ e ∈ byGameweekWrites r, ∃ gw f, e.1 = OutPath.byGW gw f ∧ f ≠ GwFile.pgwstats := by
  intro e he
  obtain ⟨gw, _, he2⟩ := List.mem_flatMap.mp he
  obtain ⟨f, hf, hne⟩ := gameweekWritesAt_paths r gw e he2
  exact ⟨gw, f, hf, hne⟩

theorem byTournamentWrites_paths (r : Remote) :
    ∀ e ∈ byTournamentWrites r,
      ∃ t gw f, e.1 = OutPath.byTour t gw f ∧ f ≠ GwFile.pgwstats := by
  intro e he
  obtain ⟨slug, _, he2⟩ := List.mem_flatMap.mp he
  obtain ⟨gw, _, he3⟩ := List.mem_flatMap.mp he2
  obtain ⟨f, hf, hne⟩ := tournamentGwWrites_paths r slug gw e he3
  exact ⟨_, gw, f, hf, hne⟩

theorem sectionWrites_not_pgw (r : Remote) :
    ∀ e ∈ masterWrites r ++ byTournamentWrites r ++ byGameweekWrites r,
      isPgw e.1 = false := by
  intro e he
  rcases List.mem_append.mp he with h | h
  · rcases List.mem_append.mp h with h2 | h2
    · obtain ⟨f, hf⟩ := masterWrites_paths r e h2
      rw [hf]
      rfl
    · obtain ⟨t, gw, f, hf, hne⟩ := byTournamentWrites_paths r e h2
      rw [hf]
      cases f <;> first | rfl | exact absurd rfl hne
  · obtain ⟨gw, f, hf, hne⟩ := byGameweekWrites_paths r e h
    rw [hf]
    cases f <;> first | rfl | exact absurd rfl hne

/-! ### Decomposition of one run -/

/-- The store after sections 1-3, before the derived-stats calculation. -/
def midStore (r : Remote) (fs : Store) : Store :=
  populate_by_gameweek r (populate_by_tournament r (update_master_files r fs))

theorem midStore_files (r : Remote) (fs : Store) :
    (midStore r fs).files
      = applyWrites fs.files
          (masterWrites r ++ byTournamentWrites r ++ byGameweekWrites r) := by
  simp [midStore, populate_by_gameweek, populate_by_tournament, update_master_files,
    applyWrites_append]

theorem midStore_gwDirs (r : Remote) (fs : Store) :
    (midStore r fs).gwDirs = addDirs fs.gwDirs (processedGwList r) := rfl

theorem midStore_tourDirs (r : Remote) (fs : Store) :
    (midStore r fs).tourDirs = addDirs fs.tourDirs (tourDirList r) := rfl

theorem midStore_byGwRoot (r : Remote) (fs : Store) :
    (midStore r fs).byGwRoot = (fs.byGwRoot || !(processedGwList r).isEmpty) := rfl

theorem midStore_byTourRoot (r : Remote) (fs : Store) :
    (midStore r fs).byTourRoot = (fs.byTourRoot || !(tourDirList r).isEmpty) := rfl

theorem calc_files (s : Store) :
    (calculate_discrete_gameweek_stats s).files = applyWrites s.files (calcWrites s) := rfl

theorem calc_gwDirs (s : Store) :
    (calculate_discrete_gameweek_stats s).gwDirs = s.gwDirs := rfl

theorem calc_tourDirs (s : Store) :
    (calculate_discrete_gameweek_stats s).tourDirs = s.tourDirs := rfl

theorem calc_byGwRoot (s : Store) :
    (calculate_discrete_gameweek_stats s).byGwRoot = s.byGwRoot := rfl

theorem calc_byTourRoot (s : Store) :
    (calculate_discrete_gameweek_stats s).byTourRoot = s.byTourRoot := rfl

theorem runExport_ok (r : Remote) (fs : Store)
    (h1 : r.gameweeks_df ≠ []) (h2 : r.players_df ≠ []) (h3 : r.playerstats_df ≠ [])
    (h4 : r.teams_df ≠ []) (h5 : r.matches_df ≠ []) :
    runExport r fs = Except.ok (calculate_discrete_gameweek_stats (midStore r fs)) := by
  rw [runExport, if_neg]
  · rfl
  · simp [List.isEmpty_iff, h1, h2, h3, h4, h5]

theorem runOutput_eq (r : Remote) (fs : Store)
    (h1 : r.gameweeks_df ≠ []) (h2 : r.players_df ≠ []) (h3 : r.playerstats_df ≠ [])
    (h4 : r.teams_df ≠ []) (h5 : r.matches_df ≠ []) :
    runOutput r fs = calculate_discrete_gameweek_stats (midStore r fs) := by
  rw [runOutput, runExport_ok r fs h1 h2 h3 h4 h5]

/-- The derived-stats section never changes a file other than a
`player_gameweek_stats.csv`. -/
theorem calc_frame (s : Store) (p : OutPath) (hp : isPgw p = false) :
    getFile (calculate_discrete_gameweek_stats s).files p = getFile s.files p := by
  rw [calc_files]
  exact getFile_applyWrites_frame s.files (calcWrites s) p (calcWrites_avoid s p hp)

theorem processedGwList_nodup (r : Remote) : (processedGwList r).Nodup :=
  (nodup_sortedUnique _).filter _

theorem mem_processedGwList (r : Remote) (gw : Int) :
    gw ∈ processedGwList r ↔ gw ∈ r.gameweeks_df.map (fun g => g.id) := by
  simp [processedGwList, gwIdList, List.mem_filter, mem_sortedUnique]

/-- After a successful run, the per-gameweek file of each remote gameweek
holds exactly the value the `By Gameweek` loop wrote for it. -/
theorem run_byGW_write (r : Remote) (fs : Store) (gw : Int) (f : GwFile) (d : TableData)
    (h1 : r.gameweeks_df ≠ []) (h2 : r.players_df ≠ []) (h3 : r.playerstats_df ≠ [])
    (h4 : r.teams_df ≠ []) (h5 : r.matches_df ≠ [])
    (hgw : gw ∈ r.gameweeks_df.map (fun g => g.id))
    (hpg : isPgw (OutPath.byGW gw f) = false)
    (hd : lastWrite (OutPath.byGW gw f) (gameweekWritesAt r gw) = some d) :
    getFile (runOutput r fs).files (OutPath.byGW gw f) = some d := by
  rw [runOutput_eq r fs h1 h2 h3 h4 h5, calc_frame _ _ hpg, midStore_files,
    applyWrites_append, getFile_applyWrites]
  have hblock : lastWrite (OutPath.byGW gw f) ((processedGwList r).flatMap (gameweekWritesAt r))
      = lastWrite (OutPath.byGW gw f) (gameweekWritesAt r gw) := by
    apply lastWrite_flatMap_block (processedGwList r) (gameweekWritesAt r) gw _
      (processedGwList_nodup r) ((mem_processedGwList r gw).mpr hgw)
    intro g2 _ hne e he
    obtain ⟨f2, hf2, _⟩ := gameweekWritesAt_paths r g2 e he
    rw [hf2]
    intro hcontra
    injection hcontra with hg _
    exact hne hg
  rw [show byGameweekWrites r = (processedGwList r).flatMap (gameweekWritesAt r) from rfl,
    hblock, hd]

theorem lastWrite_gwblock_players (r : Remote) (gw : Int) :
    lastWrite (OutPath.byGW gw GwFile.players) (gameweekWritesAt r gw)
      = some (TableData.players r.players_df) := by
  simp [gameweekWritesAt, lastWrite]

theorem lastWrite_gwblock_teams (r : Remote) (gw : Int) :
    lastWrite (OutPath.byGW gw GwFile.teams) (gameweekWritesAt r gw)
      = some (TableData.teams r.teams_df) := by
  simp [gameweekWritesAt, lastWrite]

theorem lastWrite_gwblock_matches (r : Remote) (gw : Int) :
    lastWrite (OutPath.byGW gw GwFile.matches) (gameweekWritesAt r gw)
      = some (TableData.matches
          ((filteredMatches r).filter (fun m => decide (m.gameweek = gw)))) := by
  simp [gameweekWritesAt, lastWrite]

theorem lastWrite_gwblock_fixtures (r : Remote) (gw : Int) :
    lastWrite (OutPath.byGW gw GwFile.fixtures) (gameweekWritesAt r gw)
      = some (TableData.matches
          ((filteredMatches r).filter (fun m => decide (m.gameweek = gw)))) := by
  simp [gameweekWritesAt, lastWrite]

theorem lastWrite_gwblock_playerstats (r : Remote) (gw : Int) :
    lastWrite (OutPath.byGW gw GwFile.playerstats) (gameweekWritesAt r gw)
      = some (TableData.playerstats
          (r.playerstats_df.filter (fun ps => decide (ps.gw = gw)))) := by
  simp [gameweekWritesAt, lastWrite]

/-! ### The delta computation under key-unique snapshots -/

theorem filter_id_eq_nil (l : List StatRow) (i : Int)
    (h : i ∉ l.map StatRow.id) :
    l.filter (fun p => decide (p.id = i)) = [] := by
  induction l with
  | nil => rfl
  | cons p rest ih =>
    have hp : p.id ≠ i := by
      intro hcontra
      exact h (hcontra ▸ List.mem_map_of_mem StatRow.id (List.mem_cons_self p rest))
    rw [List.filter_cons_of_neg (by simp [hp])]
    exact ih (fun hm => h (List.mem_cons_of_mem _ hm))

/-- When the previous snapshot has one row per entity id, the filter used
by the left merge finds at most that entity's single row. -/
theorem filter_id_of_nodup (l : List StatRow) (i : Int)
    (hnd : (l.map StatRow.id).Nodup) :
    l.filter (fun p => decide (p.id = i))
      = match l.find? (fun p => decide (p.id = i)) with
        | none => []
        | some q => [q] := by
  induction l with
  | nil => rfl
  | cons p rest ih =>
    by_cases hp : p.id = i
    · rw [List.filter_cons_of_pos (by simp [hp]), List.find?_cons_of_pos _ (by simp [hp])]
      have hmem : i ∉ rest.map StatRow.id := by
        rw [List.map_cons, List.nodup_cons] at hnd
        exact hp ▸ hnd.1
      rw [filter_id_eq_nil rest i hmem]
    · rw [List.filter_cons_of_neg (by simp [hp]), List.find?_cons_of_neg _ (by simp [hp])]
      rw [List.map_cons, List.nodup_cons] at hnd
      exact ih hnd.2

theorem mergeLeft_of_nodup (cur prev : List StatRow)
    (hnd : (prev.map StatRow.id).Nodup) :
    mergeLeft cur prev
      = cur.map (fun c => (c, prev.find? (fun p => decide (p.id = c.id)))) := by
  unfold mergeLeft
  induction cur with
  | nil => rfl
  | cons c rest ih =>
    rw [List.flatMap_cons, List.map_cons, ih]
    rw [filter_id_of_nodup prev c.id hnd]
    cases prev.find? (fun p => decide (p.id = c.id)) <;> rfl

def c2cur : List StatRow :=
  [{ id := 1, gw := 2, names := ["alice".data], snap := [3], cum := [2, 7] }]

def c2prev : List StatRow :=
  [{ id := 1, gw := 1, names := ["alice".data], snap := [9], cum := [5, 2] }]

/-- C2: for every current cumulative snapshot and previous snapshot with
one row per entity id, the derived table has exactly one row per current
row with the current row's entity id; every additive (cumulative) column
is `current - previous` with a missing previous row treated as a zero
baseline (the difference is then the current value unchanged, and a
negative difference is emitted as-is, never clamped); name and snapshot
columns are copied verbatim from the current snapshot. -/
theorem c2_delta_correct (cur prev : List StatRow)
    (hprev : (prev.map StatRow.id).Nodup) :
    ((calcDelta cur prev).map DeltaRow.id = cur.map StatRow.id) ∧
    calcDelta cur prev
      = cur.map (fun c =>
          match prev.find? (fun p => decide (p.id = c.id)) with
          | none => { id := c.id, names := c.names, snap := c.snap, cum := c.cum }
          | some p => { id := c.id, names := c.names, snap := c.snap,
                        cum := c.cum.zipWith (fun a b => a - b) p.cum }) := by
  have hmain : calcDelta cur prev
      = cur.map (fun c =>
          match prev.find? (fun p => decide (p.id = c.id)) with
          | none => { id := c.id, names := c.names, snap := c.snap, cum := c.cum }
          | some p => { id := c.id, names := c.names, snap := c.snap,
                        cum := c.cum.zipWith (fun a b => a - b) p.cum }) := by
    rw [calcDelta, mergeLeft_of_nodup cur prev hprev, List.map_map]
    apply List.map_congr_left
    intro c _
    cases hfind : prev.find? (fun p => decide (p.id = c.id)) with
    | none => simp [hfind, deltaRowOf, toDeltaRow, Function.comp]
    | some p => simp [hfind, deltaRowOf, Function.comp]
  refine ⟨?_, hmain⟩
  rw [hmain, List.map_map]
  apply List.map_congr_left
  intro c _
  cases hfind : prev.find? (fun p => decide (p.id = c.id)) with
  | none => simp [hfind, Function.comp]
  | some p => simp [hfind, Function.comp]

/-- C2 witness: a previous total larger than the current one yields a
negative delta, unchanged snapshot columns, and the current row set. -/
theorem c2_delta_correct_witness :
    ((c2prev.map StatRow.id).Nodup) ∧
    calcDelta c2cur c2prev
      = [{ id := 1, names := ["alice".data], snap := [3], cum := [-3, 5] }] := by
  refine ⟨by decide, ?_⟩
  rw [(c2_delta_correct c2cur c2prev (by decide)).2]
  decide

/-! ### The tournament slug classifier -/

/-- C7 counterexample: the map is not checked longest-slug-first — the
identifier `friendly-premier-league` contains the 14-character slug
`premier-league`, yet `extract_tournament_slug` returns the 8-character
slug `friendly`, because the map is scanned in insertion order. -/
theorem c7_counterexample :
    ("premier-league".data <:+: "friendly-premier-league".data) ∧
    ("friendly".data : List Char).length < ("premier-league".data : List Char).length ∧
    extract_tournament_slug "friendly-premier-league".data = some "friendly".data := by
  refine ⟨by decide, by decide, by decide⟩

/-- C7 (amended): the map is checked in fixed insertion order, in which
`premier-league` precedes `prem` (the only slug of the map that is a
substring of another), so an identifier containing `premier-league` is
never classified as `prem`. -/
theorem c7_premier_league_never_prem (id : List Char)
    (h : "premier-league".data <:+: id) :
    extract_tournament_slug id ≠ some "prem".data := by
  rw [extract_tournament_slug]
  rw [show TOURNAMENT_NAME_MAP.map Prod.fst
      = ["friendly".data, "premier-league".data, "champions-league".data, "prem".data,
         "community-shield".data, "uefa-super-cup".data, "efl-cup".data] from rfl]
  by_cases h1 : ("friendly".data : List Char) <:+: id
  · rw [List.find?_cons_of_pos _ (by simp [h1])]
    simp only [Option.some.injEq]
    decide
  · rw [List.find?_cons_of_neg _ (by simp [h1]), List.find?_cons_of_pos _ (by simp [h])]
    simp only [Option.some.injEq]
    decide

/-- C7 witness for the amended statement. -/
theorem c7_premier_league_never_prem_witness :
    ("premier-league".data <:+: "x-premier-league-y".data) ∧
    extract_tournament_slug "x-premier-league-y".data ≠ some "prem".data :=
  ⟨by decide, c7_premier_league_never_prem "x-premier-league-y".data (by decide)⟩

/-! ### Run-level case analysis -/

theorem runOutput_cases (r : Remote) (fs : Store) :
    runOutput r fs = fs ∨
    (runOutput r fs).files
      = applyWrites fs.files
          ((masterWrites r ++ byTournamentWrites r ++ byGameweekWrites r)
            ++ calcWrites (midStore r fs)) := by
  by_cases hg : (r.gameweeks_df.isEmpty || r.players_df.isEmpty || r.playerstats_df.isEmpty
      || r.teams_df.isEmpty || r.matches_df.isEmpty) = true
  · left
    rw [runOutput, runExport, if_pos hg]
  · right
    rw [runOutput, runExport, if_neg hg]
    show (calculate_discrete_gameweek_stats (midStore r fs)).files = _
    rw [calc_files, midStore_files, ← applyWrites_append]

/-- Every `matches`/`fixtures` table written by sections 1-3 is a
selection of the filtered remote matches. -/
theorem sectionWrites_matches_sublist (r : Remote) :
    ∀ e ∈ masterWrites r ++ byTournamentWrites r ++ byGameweekWrites r,
      ∀ rows, e.2 = TableData.matches rows → rows.Sublist (filteredMatches r) := by
  intro e he rows hrows
  rcases List.mem_append.mp he with h | h
  · rcases List.mem_append.mp h with h2 | h2
    · simp only [masterWrites, List.mem_cons, List.not_mem_nil, or_false] at h2
      rcases h2 with rfl | rfl | rfl | rfl <;> exact absurd hrows (by simp)
    · obtain ⟨slug, _, h3⟩ := List.mem_flatMap.mp h2
      obtain ⟨gw, _, h4⟩ := List.mem_flatMap.mp h3
      simp only [tournamentGwWrites, List.mem_cons, List.not_mem_nil, or_false] at h4
      rcases h4 with rfl | rfl | rfl | rfl | rfl | rfl
      · injection hrows with hr
        rw [← hr]
        exact (List.filter_sublist _).trans (List.filter_sublist _)
      · exact absurd hrows (by simp)
      · injection hrows with hr
        rw [← hr]
        exact (List.filter_sublist _).trans (List.filter_sublist _)
      · exact absurd hrows (by simp)
      · exact absurd hrows (by simp)
      · exact absurd hrows (by simp)
  · obtain ⟨gw, _, h3⟩ := List.mem_flatMap.mp h
    simp only [gameweekWritesAt, List.mem_cons, List.not_mem_nil, or_false] at h3
    rcases h3 with rfl | rfl | rfl | rfl | rfl | rfl
    · injection hrows with hr
      rw [← hr]
      exact List.filter_sublist _
    · exact absurd hrows (by simp)
    · injection hrows with hr
      rw [← hr]
      exact List.filter_sublist _
    · exact absurd hrows (by simp)
    · exact absurd hrows (by simp)
    · exact absurd hrows (by simp)

/-! ### C1: the freeze invariant -/

def c1Remote : Remote :=
  { gameweeks_df := [{ id := 1, finished := true }]
    players_df := [{ id := 1, val := 20 }]
    playerstats_df := [{ id := 1, gw := 1, names := [], snap := [], cum := [4] }]
    teams_df := [{ id := 1, val := 0 }]
    matches_df := [{ match_id := "prem-m1".data, gameweek := 1, val := 0 }]
    playermatchstats_df := [] }

def c1Store : Store :=
  { files := [(OutPath.byGW 1 GwFile.players, TableData.players [{ id := 1, val := 10 }])]
    gwDirs := [1], tourDirs := [], byGwRoot := true, byTourRoot := false }

/-- C1: the remote marks gameweek 1 as finished, the persisted roster
snapshot for gameweek 1 holds the old player data, and a run that
fetches different player data overwrites that frozen snapshot — the
`is_finished` flag is fetched at line 244 and never consulted before any
write, so no freeze is enforced. -/
theorem c1_freeze_overwritten :
    (∀ g ∈ c1Remote.gameweeks_df, g.finished = true) ∧
    getFile c1Store.files (OutPath.byGW 1 GwFile.players)
      = some (TableData.players [{ id := 1, val := 10 }]) ∧
    getFile (runOutput c1Remote c1Store).files (OutPath.byGW 1 GwFile.players)
      = some (TableData.players [{ id := 1, val := 20 }]) := by
  refine ⟨by decide, by decide, by decide⟩

/-! ### C3: the resume point -/

def c3Remote : Remote :=
  { gameweeks_df := [{ id := 1, finished := true }, { id := 2, finished := true },
                     { id := 3, finished := true }, { id := 4, finished := false }]
    players_df := [{ id := 1, val := 99 }]
    playerstats_df := [{ id := 1, gw := 1, names := [], snap := [], cum := [4] }]
    teams_df := [{ id := 1, val := 0 }]
    matches_df := [{ match_id := "prem-m1".data, gameweek := 1, val := 0 }]
    playermatchstats_df := [] }

def c3Store : Store :=
  { files := [(OutPath.master MasterFile.gwSummaries,
                TableData.gameweeks [{ id := 1, finished := true }, { id := 2, finished := true },
                                     { id := 3, finished := true }]),
              (OutPath.byGW 1 GwFile.players, TableData.players [{ id := 1, val := 10 }])]
    gwDirs := [1, 2, 3], tourDirs := [], byGwRoot := true, byTourRoot := false }

/-- C3 counterexample: the locally persisted period summary marks
periods 1-3 as finished, yet a run re-fetches and re-processes period 1
(its per-period roster file is rewritten with the newly fetched data), so
processing does not start from the highest locally finished period. -/
theorem c3_resume_counterexample :
    getFile c3Store.files (OutPath.master MasterFile.gwSummaries)
      = some (TableData.gameweeks [{ id := 1, finished := true }, { id := 2, finished := true },
                                   { id := 3, finished := true }]) ∧
    getFile c3Store.files (OutPath.byGW 1 GwFile.players)
      = some (TableData.players [{ id := 1, val := 10 }]) ∧
    getFile (runOutput c3Remote c3Store).files (OutPath.byGW 1 GwFile.players)
      = some (TableData.players [{ id := 1, val := 99 }]) := by
  refine ⟨by decide, by decide, by decide⟩

/-- C3 (amended): the run never consults any local checkpoint — every
period present in the remote period table is re-fetched and
re-processed, and its per-period snapshot files are rewritten with the
freshly fetched data, for every prior local state. -/
theorem c3_full_reprocess (r : Remote) (fs : Store) (gw : Int)
    (h1 : r.gameweeks_df ≠ []) (h2 : r.players_df ≠ []) (h3 : r.playerstats_df ≠ [])
    (h4 : r.teams_df ≠ []) (h5 : r.matches_df ≠ [])
    (hgw : gw ∈ r.gameweeks_df.map (fun g => g.id)) :
    getFile (runOutput r fs).files (OutPath.byGW gw GwFile.players)
      = some (TableData.players r.players_df) :=
  run_byGW_write r fs gw GwFile.players _ h1 h2 h3 h4 h5 hgw rfl
    (lastWrite_gwblock_players r gw)

/-- C3 witness for the amended statement: gameweek 1 is reprocessed even
though the local summary already marks period 3 as finished. -/
theorem c3_full_reprocess_witness :
    getFile (runOutput c3Remote c3Store).files (OutPath.byGW 2 GwFile.players)
      = some (TableData.players [{ id := 1, val := 99 }]) :=
  c3_full_reprocess c3Remote c3Store 2 (by decide) (by decide) (by decide) (by decide)
    (by decide) (by decide)

/-! ### C4: upsert key uniqueness -/

def c4Remote : Remote :=
  { gameweeks_df := [{ id := 1, finished := false }]
    players_df := [{ id := 1, val := 0 }]
    playerstats_df := [{ id := 1, gw := 1, names := [], snap := [], cum := [4] }]
    teams_df := [{ id := 1, val := 0 }]
    matches_df := [{ match_id := "prem-m1".data, gameweek := 1, val := 0 },
                   { match_id := "prem-m1".data, gameweek := 1, val := 5 }]
    playermatchstats_df := [] }

/-- C4 counterexample: a remote `matches` input containing two rows with
the same match id is persisted verbatim, so the written per-gameweek
matches table has two rows sharing the declared unique key. -/
theorem c4_duplicate_keys_persisted :
    getFile (runOutput c4Remote emptyStore).files (OutPath.byGW 1 GwFile.matches)
      = some (TableData.matches
          [{ match_id := "prem-m1".data, gameweek := 1, val := 0 },
           { match_id := "prem-m1".data, gameweek := 1, val := 5 }]) ∧
    ¬ (([{ match_id := "prem-m1".data, gameweek := 1, val := 0 },
         { match_id := "prem-m1".data, gameweek := 1, val := 5 }] : List MatchRow).map
          MatchRow.match_id).Nodup := by
  refine ⟨by decide, by decide⟩

/-- Every persisted matches/fixtures table has pairwise distinct match
ids. -/
def MatchKeysUnique (s : Store) : Prop :=
  ∀ p rows, getFile s.files p = some (TableData.matches rows) →
    (rows.map MatchRow.match_id).Nodup

/-- C4 (amended): persisted tables are whole-file overwrites of filtered
fetches, not keyed upserts; key uniqueness therefore holds only
conditionally — if every previously persisted matches table had unique
match ids and the remote matches input has unique match ids, then every
matches table persisted after the run has unique match ids, while
duplicate-key input rows are persisted verbatim. -/
theorem c4_key_uniqueness_preserved (r : Remote) (fs : Store)
    (hfs : MatchKeysUnique fs)
    (hkeys : (r.matches_df.map MatchRow.match_id).Nodup) :
    MatchKeysUnique (runOutput r fs) := by
  rcases runOutput_cases r fs with h | h
  · rw [h]
    exact hfs
  · intro p rows hrows
    rw [h] at hrows
    rcases getFile_applyWrites_cases fs.files
        ((masterWrites r ++ byTournamentWrites r ++ byGameweekWrites r)
          ++ calcWrites (midStore r fs)) p with hc | ⟨e, he, hep, hev⟩
    · rw [hc] at hrows
      exact hfs p rows hrows
    · have he2 : e.2 = TableData.matches rows := Option.some.inj (hev.symm.trans hrows)
      rcases List.mem_append.mp he with hw | hw
      · have hsub := sectionWrites_matches_sublist r e hw rows he2
        have hsub2 : rows.Sublist r.matches_df :=
          hsub.trans (List.filter_sublist _)
        exact (hsub2.map MatchRow.match_id).nodup hkeys
      · obtain ⟨_, rows2, hdelta⟩ := calcWrites_shape _ e hw
        rw [he2] at hdelta
        exact absurd hdelta (by simp)

/-- C4 witness for the amended statement. -/
theorem c4_key_uniqueness_preserved_witness :
    MatchKeysUnique (runOutput c3Remote emptyStore) :=
  c4_key_uniqueness_preserved c3Remote emptyStore
    (fun p rows hrows => Option.noConfusion hrows) (by decide)

/-! ### C6: the empty-batch behaviour -/

def c6Remote : Remote :=
  { gameweeks_df := [{ id := 1, finished := false }]
    players_df := [{ id := 1, val := 1 }]
    playerstats_df := [{ id := 1, gw := 0, names := [], snap := [], cum := [4] }]
    teams_df := [{ id := 1, val := 1 }]
    matches_df := [{ match_id := "friendly-a".data, gameweek := 1, val := 0 }]
    playermatchstats_df := [] }

def c6Store : Store :=
  { files := [(OutPath.byGW 1 GwFile.matches,
                TableData.matches [{ match_id := "prem-old".data, gameweek := 1, val := 3 }])]
    gwDirs := [1], tourDirs := [], byGwRoot := true, byTourRoot := false }

/-- C6 counterexample: for gameweek 1 the incoming matches batch is empty
(the only fetched match is a friendly and is filtered out), yet the run
replaces the previously persisted non-empty matches file with an empty
table instead of leaving it untouched. -/
theorem c6_empty_batch_overwrites :
    getFile c6Store.files (OutPath.byGW 1 GwFile.matches)
      = some (TableData.matches [{ match_id := "prem-old".data, gameweek := 1, val := 3 }]) ∧
    getFile (runOutput c6Remote c6Store).files (OutPath.byGW 1 GwFile.matches)
      = some (TableData.matches []) := by
  refine ⟨by decide, by decide⟩

/-- C6 (amended): per-period output files are rewritten unconditionally
on every run; when the incoming row batch for a period is empty the
existing file is overwritten with an empty table, not left untouched. -/
theorem c6_empty_batch_writes_empty_table (r : Remote) (fs : Store) (gw : Int)
    (h1 : r.gameweeks_df ≠ []) (h2 : r.players_df ≠ []) (h3 : r.playerstats_df ≠ [])
    (h4 : r.teams_df ≠ []) (h5 : r.matches_df ≠ [])
    (hgw : gw ∈ r.gameweeks_df.map (fun g => g.id))
    (hempty : (filteredMatches r).filter (fun m => decide (m.gameweek = gw)) = []) :
    getFile (runOutput r fs).files (OutPath.byGW gw GwFile.matches)
      = some (TableData.matches []) := by
  have h := run_byGW_write r fs gw GwFile.matches _ h1 h2 h3 h4 h5 hgw rfl
    (lastWrite_gwblock_matches r gw)
  rw [hempty] at h
  exact h

/-- C6 witness for the amended statement. -/
theorem c6_empty_batch_writes_empty_table_witness :
    getFile (runOutput c6Remote c6Store).files (OutPath.byGW 1 GwFile.matches)
      = some (TableData.matches []) :=
  c6_empty_batch_writes_empty_table c6Remote c6Store 1 (by decide) (by decide) (by decide)
    (by decide) (by decide) (by decide) (by decide)


/-! ### Localized behaviour of the derived-stats calculation -/

theorem part2_avoids_byGW (s : Store) (p : OutPath)
    (hp : ∀ t g, p ≠ OutPath.byTour t g GwFile.pgwstats) :
    lastWrite p (part2Writes s) = none := by
  apply lastWrite_eq_none
  intro e he
  obtain ⟨t, g2, rows, rfl⟩ := part2Writes_shape s e he
  exact fun h => hp t g2 h.symm

theorem part1_avoids_byTour (s : Store) (t : List Char) (g : Int) :
    lastWrite (OutPath.byTour t g GwFile.pgwstats) (part1Writes s) = none := by
  apply lastWrite_eq_none
  intro e he
  obtain ⟨g2, rows, rfl⟩ := part1Writes_shape s e he
  simp

/-- The only part-1 iteration that can write into `GW<g>` is the one at
`g`'s own position in the sorted directory list. -/
theorem lastWrite_part1 (s : Store) (i : Nat) (g : Int)
    (hnd : s.gwDirs.Nodup)
    (hig : (List.insertionSort (· ≤ ·) s.gwDirs)[i]? = some g) :
    lastWrite (OutPath.byGW g GwFile.pgwstats) (part1Writes s)
      = match part1Step s (List.insertionSort (· ≤ ·) s.gwDirs) (i, g) with
        | some e => if e.1 = OutPath.byGW g GwFile.pgwstats then some e.2 else none
        | none => none := by
  have hdnd : (List.insertionSort (· ≤ ·) s.gwDirs).Nodup :=
    (List.perm_insertionSort _ _).nodup_iff.mpr hnd
  rw [part1Writes]
  apply lastWrite_filterMap_block
  · exact List.Nodup.of_map Prod.fst (List.nodup_enum_map_fst _)
  · exact List.mem_enum_iff_getElem?.mpr hig
  · intro y hy hynx e hfe hcontra
    obtain ⟨rows, rfl⟩ := part1Step_shape s _ y e hfe
    injection hcontra with hy2 _
    apply hynx
    have hy2p : (List.insertionSort (· ≤ ·) s.gwDirs)[y.1]? = some y.2 :=
      List.mem_enum_iff_getElem?.mp hy
    rw [hy2] at hy2p
    have hlen : y.1 < (List.insertionSort (· ≤ ·) s.gwDirs).length :=
      (List.getElem?_eq_some.mp hy2p).1
    have hidx : y.1 = i := List.getElem?_inj hlen hdnd (hy2p.trans hig.symm)
    cases y with
    | mk a b =>
      simp only at hy2 hidx
      rw [hy2, hidx]

/-- The only part-2 iteration that can write into tournament `t`'s
`GW<gw>` folder is the iteration for `(t, gw)` itself. -/
theorem lastWrite_part2 (s : Store) (t : List Char) (gw : Int)
    (htroot : s.byTourRoot = true) (hnd : s.tourDirs.Nodup)
    (hdir : (t, gw) ∈ s.tourDirs) :
    lastWrite (OutPath.byTour t gw GwFile.pgwstats) (part2Writes s)
      = match part2Step s t gw with
        | some e => if e.1 = OutPath.byTour t gw GwFile.pgwstats then some e.2 else none
        | none => none := by
  rw [part2Writes, if_pos htroot]
  have hblock : lastWrite (OutPath.byTour t gw GwFile.pgwstats)
      ((uniqFirst (s.tourDirs.map Prod.fst)).flatMap (fun t2 =>
        (List.insertionSort (· ≤ ·)
          ((s.tourDirs.filter (fun e => decide (e.1 = t2))).map Prod.snd)).filterMap
            (part2Step s t2)))
      = lastWrite (OutPath.byTour t gw GwFile.pgwstats)
          ((List.insertionSort (· ≤ ·)
            ((s.tourDirs.filter (fun e => decide (e.1 = t))).map Prod.snd)).filterMap
              (part2Step s t)) := by
    apply lastWrite_flatMap_block
    · exact nodup_uniqFirst _
    · exact (mem_uniqFirst _ _).mpr (List.mem_map_of_mem Prod.fst hdir)
    · intro t2 _ ht2 e hfe hcontra
      obtain ⟨gw2, _, hstep⟩ := List.mem_filterMap.mp hfe
      obtain ⟨rows, rfl⟩ := part2Step_shape s t2 gw2 e hstep
      injection hcontra with ht2t _ _
      exact ht2 ht2t
  rw [hblock]
  have hfnd : ((s.tourDirs.filter (fun e => decide (e.1 = t))).map Prod.snd).Nodup := by
    apply List.Nodup.map_on
    · intro x hx y hy hxy
      have hxt : x.1 = t := by
        have := (List.mem_filter.mp hx).2
        exact of_decide_eq_true this
      have hyt : y.1 = t := by
        have := (List.mem_filter.mp hy).2
        exact of_decide_eq_true this
      cases x
      cases y
      simp only at hxt hyt hxy
      rw [hxt, hyt, hxy]
    · exact hnd.filter _
  apply lastWrite_filterMap_block
  · exact (List.perm_insertionSort _ _).nodup_iff.mpr hfnd
  · exact (List.mem_insertionSort _).mpr
      (List.mem_map.mpr ⟨(t, gw), List.mem_filter.mpr ⟨hdir, by simp⟩, rfl⟩)
  · intro gw2 _ hgw2 e hstep hcontra
    obtain ⟨rows, rfl⟩ := part2Step_shape s t gw2 e hstep
    injection hcontra with _ hg _
    exact hgw2 hg

/-! ### C8: error propagation -/

/-- C8: an empty fetch result (`fetch_all_rows` returns an empty table on
any exception) for any of the five essential tables aborts the whole run
with exit code 1 before any write, leaving the store untouched; by
contrast a missing per-period input — the previous directory's
`playerstats.csv` needed for a delta — only causes that directory's
derived-stats file to be skipped (left unchanged) while the rest of the
calculation proceeds: the baseline directory's derived stats are still
written. -/
theorem c8_error_propagation (r : Remote) (fs s : Store) (i : Nat) (g gp g0 : Int)
    (cur cur0 : List StatRow) :
    ((r.gameweeks_df = [] ∨ r.players_df = [] ∨ r.playerstats_df = [] ∨
        r.teams_df = [] ∨ r.matches_df = []) →
      runExport r fs = Except.error 1 ∧ runOutput r fs = fs) ∧
    (s.gwDirs.Nodup →
      (List.insertionSort (· ≤ ·) s.gwDirs)[i]? = some g →
      i ≠ 0 →
      (List.insertionSort (· ≤ ·) s.gwDirs)[i - 1]? = some gp →
      getFile s.files (OutPath.byGW g GwFile.playerstats)
        = some (TableData.playerstats cur) →
      getFile s.files (OutPath.byGW gp GwFile.playerstats) = none →
      getFile (calculate_discrete_gameweek_stats s).files (OutPath.byGW g GwFile.pgwstats)
        = getFile s.files (OutPath.byGW g GwFile.pgwstats)) ∧
    (s.byGwRoot = true →
      s.gwDirs.Nodup →
      (List.insertionSort (· ≤ ·) s.gwDirs)[0]? = some g0 →
      getFile s.files (OutPath.byGW g0 GwFile.playerstats)
        = some (TableData.playerstats cur0) →
      getFile (calculate_discrete_gameweek_stats s).files (OutPath.byGW g0 GwFile.pgwstats)
        = some (TableData.delta (cur0.map toDeltaRow))) := by
  refine ⟨?_, ?_, ?_⟩
  · intro hess
    have hg : (r.gameweeks_df.isEmpty || r.players_df.isEmpty || r.playerstats_df.isEmpty
        || r.teams_df.isEmpty || r.matches_df.isEmpty) = true := by
      rcases hess with h | h | h | h | h <;> simp [h]
    constructor
    · rw [runExport, if_pos hg]
    · rw [runOutput, runExport, if_pos hg]
  · intro hnd hig hi0 higp hcur hprev
    have hstep : part1Step s (List.insertionSort (· ≤ ·) s.gwDirs) (i, g) = none := by
      simp [part1Step, hcur, hi0, higp, hprev]
    rw [calc_files, getFile_applyWrites]
    have hnone : lastWrite (OutPath.byGW g GwFile.pgwstats) (calcWrites s) = none := by
      rw [calcWrites]
      split
      · rw [lastWrite_append, part2_avoids_byGW s _ (fun t g2 => by simp),
          lastWrite_part1 s i g hnd hig, hstep]
      · rfl
    rw [hnone]
  · intro hroot hnd hig hcur
    have hstep : part1Step s (List.insertionSort (· ≤ ·) s.gwDirs) (0, g0)
        = some (OutPath.byGW g0 GwFile.pgwstats, TableData.delta (cur0.map toDeltaRow)) := by
      simp [part1Step, hcur]
    rw [calc_files, getFile_applyWrites, calcWrites, if_pos hroot, lastWrite_append,
      part2_avoids_byGW s _ (fun t g2 => by simp), lastWrite_part1 s 0 g0 hnd hig, hstep]
    simp

def c8Remote : Remote :=
  { gameweeks_df := [{ id := 1, finished := false }]
    players_df := []
    playerstats_df := [{ id := 1, gw := 1, names := [], snap := [], cum := [4] }]
    teams_df := [{ id := 1, val := 0 }]
    matches_df := [{ match_id := "prem-m1".data, gameweek := 1, val := 0 }]
    playermatchstats_df := [] }

def c8Store : Store :=
  { files := [(OutPath.byGW 1 GwFile.playerstats,
                TableData.playerstats [{ id := 1, gw := 1, names := [], snap := [], cum := [4] }]),
              (OutPath.byGW 3 GwFile.playerstats,
                TableData.playerstats [{ id := 1, gw := 3, names := [], snap := [], cum := [9] }]),
              (OutPath.byGW 3 GwFile.pgwstats,
                TableData.delta [{ id := 7, names := [], snap := [], cum := [0] }])]
    gwDirs := [1, 2, 3], tourDirs := [], byGwRoot := true, byTourRoot := false }

/-- C8 witness: an empty `players` fetch aborts the run untouched; a
store whose `GW2` snapshot is missing keeps `GW3`'s old derived file
while `GW1`'s baseline derived file is still produced. -/
theorem c8_error_propagation_witness :
    (runExport c8Remote emptyStore = Except.error 1 ∧
      runOutput c8Remote emptyStore = emptyStore) ∧
    getFile (calculate_discrete_gameweek_stats c8Store).files (OutPath.byGW 3 GwFile.pgwstats)
      = getFile c8Store.files (OutPath.byGW 3 GwFile.pgwstats) ∧
    getFile (calculate_discrete_gameweek_stats c8Store).files (OutPath.byGW 1 GwFile.pgwstats)
      = some (TableData.delta [{ id := 1, names := [], snap := [], cum := [4] }]) :=
  ⟨(c8_error_propagation c8Remote emptyStore c8Store 2 3 2 1 [] []).1
      (Or.inr (Or.inl rfl)),
   (c8_error_propagation c8Remote emptyStore c8Store 2 3 2 1
      [{ id := 1, gw := 3, names := [], snap := [], cum := [9] }] []).2.1
      (by decide) (by decide) (by decide) (by decide) (by decide) (by decide),
   (c8_error_propagation c8Remote emptyStore c8Store 2 3 2 1 []
      [{ id := 1, gw := 1, names := [], snap := [], cum := [4] }]).2.2
      (by decide) (by decide) (by decide) (by decide)⟩

/-! ### C9: the tournament delta baseline -/

/-- C9: for a tournament folder `t` and a gameweek directory `gw > 1`
(more precisely `gw` other than 1), the derived per-period stats written
into the tournament folder are computed against the main
`By Gameweek/GW<gw-1>/playerstats.csv` snapshot — never against the
tournament's own previous folder — and when that main baseline file is
absent the tournament gameweek is skipped, its derived file left
unchanged. -/
theorem c9_tournament_delta_baseline (s : Store) (t : List Char) (gw : Int)
    (cur prev : List StatRow)
    (hroot : s.byGwRoot = true) (htroot : s.byTourRoot = true)
    (hnd : s.tourDirs.Nodup) (hdir : (t, gw) ∈ s.tourDirs) (hgw1 : gw ≠ 1)
    (hcur : getFile s.files (OutPath.byTour t gw GwFile.playerstats)
      = some (TableData.playerstats cur)) :
    (getFile s.files (OutPath.byGW (gw - 1) GwFile.playerstats)
        = some (TableData.playerstats prev) →
      getFile (calculate_discrete_gameweek_stats s).files
          (OutPath.byTour t gw GwFile.pgwstats)
        = some (TableData.delta (calcDelta cur prev))) ∧
    (getFile s.files (OutPath.byGW (gw - 1) GwFile.playerstats) = none →
      getFile (calculate_discrete_gameweek_stats s).files
          (OutPath.byTour t gw GwFile.pgwstats)
        = getFile s.files (OutPath.byTour t gw GwFile.pgwstats)) := by
  constructor
  · intro hprev
    have hstep : part2Step s t gw
        = some (OutPath.byTour t gw GwFile.pgwstats, TableData.delta (calcDelta cur prev)) := by
      simp [part2Step, hcur, hgw1, hprev]
    rw [calc_files, getFile_applyWrites, calcWrites, if_pos hroot, lastWrite_append,
      lastWrite_part2 s t gw htroot hnd hdir, hstep]
    simp
  · intro hprev
    have hstep : part2Step s t gw = none := by
      simp [part2Step, hcur, hgw1, hprev]
    rw [calc_files, getFile_applyWrites, calcWrites, if_pos hroot, lastWrite_append,
      lastWrite_part2 s t gw htroot hnd hdir, hstep, part1_avoids_byTour]

def c9cur : List StatRow :=
  [{ id := 1, gw := 2, names := [], snap := [2], cum := [8] }]

def c9prev : List StatRow :=
  [{ id := 1, gw := 1, names := [], snap := [1], cum := [5] }]

def c9StoreA : Store :=
  { files := [(OutPath.byTour "Premier League".data 2 GwFile.playerstats,
                TableData.playerstats c9cur),
              (OutPath.byTour "Premier League".data 1 GwFile.playerstats,
                TableData.playerstats [{ id := 1, gw := 1, names := [], snap := [0], cum := [999] }]),
              (OutPath.byGW 1 GwFile.playerstats, TableData.playerstats c9prev)]
    gwDirs := [], tourDirs := [("Premier League".data, 2)]
    byGwRoot := true, byTourRoot := true }

def c9StoreB : Store :=
  { files := [(OutPath.byTour "Premier League".data 2 GwFile.playerstats,
                TableData.playerstats c9cur),
              (OutPath.byTour "Premier League".data 2 GwFile.pgwstats,
                TableData.delta [{ id := 3, names := [], snap := [], cum := [1] }])]
    gwDirs := [], tourDirs := [("Premier League".data, 2)]
    byGwRoot := true, byTourRoot := true }

/-- C9 witness: with the main GW1 baseline present the tournament GW2
delta is `current − main baseline` (the tournament's own GW1 folder,
which holds different numbers, is ignored); with the main baseline
absent the old derived file is kept. -/
theorem c9_tournament_delta_baseline_witness :
    getFile (calculate_discrete_gameweek_stats c9StoreA).files
        (OutPath.byTour "Premier League".data 2 GwFile.pgwstats)
      = some (TableData.delta (calcDelta c9cur c9prev)) ∧
    getFile (calculate_discrete_gameweek_stats c9StoreB).files
        (OutPath.byTour "Premier League".data 2 GwFile.pgwstats)
      = getFile c9StoreB.files (OutPath.byTour "Premier League".data 2 GwFile.pgwstats) :=
  ⟨(c9_tournament_delta_baseline c9StoreA "Premier League".data 2 c9cur c9prev
      rfl rfl (by decide) (by decide) (by decide) (by decide)).1 (by decide),
   (c9_tournament_delta_baseline c9StoreB "Premier League".data 2 c9cur c9prev
      rfl rfl (by decide) (by decide) (by decide) (by decide)).2 (by decide)⟩


/-! ### C10: pre-season and friendly exclusion -/

theorem mem_filteredMatches (r : Remote) (m : MatchRow) (h : m ∈ filteredMatches r) :
    m ∈ r.matches_df ∧ m.gameweek ≠ 0 ∧ mTour m ≠ some "friendly".data := by
  have h2 := List.mem_filter.mp h
  refine ⟨h2.1, ?_, ?_⟩
  · have := (Bool.and_eq_true _ _).mp h2.2
    exact of_decide_eq_true this.1
  · have := (Bool.and_eq_true _ _).mp h2.2
    exact of_decide_eq_true this.2

theorem mem_filteredMatches_of (r : Remote) (m : MatchRow) (hm : m ∈ r.matches_df)
    (h0 : m.gameweek ≠ 0) (hf : mTour m ≠ some "friendly".data) :
    m ∈ filteredMatches r := by
  refine List.mem_filter.mpr ⟨hm, ?_⟩
  rw [Bool.and_eq_true, decide_eq_true_eq, decide_eq_true_eq]
  exact ⟨h0, hf⟩

/-- Every matches/fixtures table written by the tournament section holds
only matches with a recognized tournament slug. -/
theorem byTournamentWrites_matches_recognized (r : Remote) :
    ∀ e ∈ byTournamentWrites r, ∀ rows, e.2 = TableData.matches rows →
      ∀ m ∈ rows, mTour m ≠ none := by
  intro e he rows hrows m hm
  obtain ⟨slug, _, h3⟩ := List.mem_flatMap.mp he
  obtain ⟨gw, _, h4⟩ := List.mem_flatMap.mp h3
  simp only [tournamentGwWrites, List.mem_cons, List.not_mem_nil, or_false] at h4
  have hslug : ∀ m2 ∈ (tournamentMatches r slug).filter
      (fun m2 => decide (m2.gameweek = gw)), mTour m2 ≠ none := by
    intro m2 hm2
    have hm3 := List.mem_filter.mp ((List.filter_sublist _).subset hm2)
    have : mTour m2 = some slug := of_decide_eq_true hm3.2
    rw [this]
    exact fun hc => Option.noConfusion hc
  rcases h4 with rfl | rfl | rfl | rfl | rfl | rfl
  · injection hrows with hr
    exact hslug m (hr ▸ hm)
  · exact absurd hrows (by simp)
  · injection hrows with hr
    exact hslug m (hr ▸ hm)
  · exact absurd hrows (by simp)
  · exact absurd hrows (by simp)
  · exact absurd hrows (by simp)

/-- Every player-match-stats table written by sections 1-3 holds only
rows whose match id is the id of a kept (filtered) match. -/
theorem sectionWrites_pms_accounted (r : Remote) :
    ∀ e ∈ masterWrites r ++ byTournamentWrites r ++ byGameweekWrites r,
      ∀ rows, e.2 = TableData.pms rows →
        ∀ x ∈ rows, ∃ m ∈ filteredMatches r, m.match_id = x.match_id := by
  intro e he rows hrows x hx
  rcases List.mem_append.mp he with h | h
  · rcases List.mem_append.mp h with h2 | h2
    · simp only [masterWrites, List.mem_cons, List.not_mem_nil, or_false] at h2
      rcases h2 with rfl | rfl | rfl | rfl <;> exact absurd hrows (by simp)
    · obtain ⟨slug, _, h3⟩ := List.mem_flatMap.mp h2
      obtain ⟨gw, _, h4⟩ := List.mem_flatMap.mp h3
      simp only [tournamentGwWrites, List.mem_cons, List.not_mem_nil, or_false] at h4
      rcases h4 with rfl | rfl | rfl | rfl | rfl | rfl
      · exact absurd hrows (by simp)
      · injection hrows with hr
        rw [← hr] at hx
        have hx2 := List.mem_filter.mp hx
        have hmid : x.match_id ∈ uniqFirst
            (((tournamentMatches r slug).filter
              (fun m => decide (m.gameweek = gw))).map (fun m => m.match_id)) :=
          of_decide_eq_true hx2.2
        rw [mem_uniqFirst] at hmid
        obtain ⟨m, hm, hmeq⟩ := List.mem_map.mp hmid
        exact ⟨m, ((List.filter_sublist _).trans (List.filter_sublist _)).subset hm, hmeq⟩
      · exact absurd hrows (by simp)
      · exact absurd hrows (by simp)
      · exact absurd hrows (by simp)
      · exact absurd hrows (by simp)
  · obtain ⟨gw, _, h3⟩ := List.mem_flatMap.mp h
    simp only [gameweekWritesAt, List.mem_cons, List.not_mem_nil, or_false] at h3
    rcases h3 with rfl | rfl | rfl | rfl | rfl | rfl
    · exact absurd hrows (by simp)
    · injection hrows with hr
      rw [← hr] at hx
      have hx2 := List.mem_filter.mp hx
      have hmid : x.match_id ∈ uniqFirst
          (((filteredMatches r).filter
            (fun m => decide (m.gameweek = gw))).map (fun m => m.match_id)) :=
        of_decide_eq_true hx2.2
      rw [mem_uniqFirst] at hmid
      obtain ⟨m, hm, hmeq⟩ := List.mem_map.mp hmid
      exact ⟨m, (List.filter_sublist _).subset hm, hmeq⟩
    · exact absurd hrows (by simp)
    · exact absurd hrows (by simp)
    · exact absurd hrows (by simp)
    · exact absurd hrows (by simp)

/-- No persisted matches/fixtures table contains a pre-season (gameweek
0) or friendly match. -/
def PreseasonFree (s : Store) : Prop :=
  ∀ p rows, getFile s.files p = some (TableData.matches rows) →
    ∀ m ∈ rows, m.gameweek ≠ 0 ∧ mTour m ≠ some "friendly".data

/-- No matches/fixtures table inside a tournament folder contains a
match without a recognized tournament slug. -/
def TourRecognized (s : Store) : Prop :=
  ∀ t gw f rows, getFile s.files (OutPath.byTour t gw f) = some (TableData.matches rows) →
    ∀ m ∈ rows, mTour m ≠ none

/-- C10: matches with period id 0 or a `friendly` slug are filtered out
before any per-period or per-tournament output is written, so no
persisted matches/fixtures table ever contains such a match and every
player-match-stats table written by a run references only kept matches;
matches whose identifier yields no recognized slug are kept in the
per-gameweek matches output but never appear in a tournament folder. -/
theorem c10_preseason_exclusion (r : Remote) (fs : Store) :
    (PreseasonFree fs → PreseasonFree (runOutput r fs)) ∧
    (TourRecognized fs → TourRecognized (runOutput r fs)) ∧
    (∀ p rows, getFile (runOutput r fs).files p = some (TableData.pms rows) →
      getFile fs.files p = some (TableData.pms rows) ∨
      ∀ x ∈ rows, ∃ m ∈ filteredMatches r, m.match_id = x.match_id) ∧
    (∀ m ∈ r.matches_df, mTour m = none → m.gameweek ≠ 0 →
      r.players_df ≠ [] → r.playerstats_df ≠ [] → r.teams_df ≠ [] →
      m.gameweek ∈ r.gameweeks_df.map (fun g => g.id) →
      getFile (runOutput r fs).files (OutPath.byGW m.gameweek GwFile.matches)
        = some (TableData.matches ((filteredMatches r).filter
            (fun m2 => decide (m2.gameweek = m.gameweek)))) ∧
      m ∈ (filteredMatches r).filter (fun m2 => decide (m2.gameweek = m.gameweek))) := by
  refine ⟨?_, ?_, ?_, ?_⟩
  · intro hfs p rows hrows m hm
    rcases runOutput_cases r fs with h | h
    · rw [h] at hrows
      exact hfs p rows hrows m hm
    · rw [h] at hrows
      rcases getFile_applyWrites_cases fs.files
          ((masterWrites r ++ byTournamentWrites r ++ byGameweekWrites r)
            ++ calcWrites (midStore r fs)) p with hc | ⟨e, he, hep, hev⟩
      · rw [hc] at hrows
        exact hfs p rows hrows m hm
      · have he2 : e.2 = TableData.matches rows := Option.some.inj (hev.symm.trans hrows)
        rcases List.mem_append.mp he with hw | hw
        · have hsub := sectionWrites_matches_sublist r e hw rows he2
          have := mem_filteredMatches r m (hsub.subset hm)
          exact ⟨this.2.1, this.2.2⟩
        · obtain ⟨_, rows2, hdelta⟩ := calcWrites_shape _ e hw
          rw [he2] at hdelta
          exact absurd hdelta (by simp)
  · intro hfs t gw f rows hrows m hm
    rcases runOutput_cases r fs with h | h
    · rw [h] at hrows
      exact hfs t gw f rows hrows m hm
    · rw [h] at hrows
      rcases getFile_applyWrites_cases fs.files
          ((masterWrites r ++ byTournamentWrites r ++ byGameweekWrites r)
            ++ calcWrites (midStore r fs)) (OutPath.byTour t gw f) with hc | ⟨e, he, hep, hev⟩
      · rw [hc] at hrows
        exact hfs t gw f rows hrows m hm
      · have he2 : e.2 = TableData.matches rows := Option.some.inj (hev.symm.trans hrows)
        rcases List.mem_append.mp he with hw | hw
        · rcases List.mem_append.mp hw with hw2 | hw2
          · rcases List.mem_append.mp hw2 with hw3 | hw3
            · obtain ⟨f2, hf2⟩ := masterWrites_paths r e hw3
              rw [hep] at hf2
              exact absurd hf2 (by simp)
            · exact byTournamentWrites_matches_recognized r e hw3 rows he2 m hm
          · obtain ⟨gw2, f2, hf2, _⟩ := byGameweekWrites_paths r e hw2
            rw [hep] at hf2
            exact absurd hf2 (by simp)
        · obtain ⟨_, rows2, hdelta⟩ := calcWrites_shape _ e hw
          rw [he2] at hdelta
          exact absurd hdelta (by simp)
  · intro p rows hrows
    rcases runOutput_cases r fs with h | h
    · rw [h] at hrows
      exact Or.inl hrows
    · rw [h] at hrows
      rcases getFile_applyWrites_cases fs.files
          ((masterWrites r ++ byTournamentWrites r ++ byGameweekWrites r)
            ++ calcWrites (midStore r fs)) p with hc | ⟨e, he, hep, hev⟩
      · rw [hc] at hrows
        exact Or.inl hrows
      · have he2 : e.2 = TableData.pms rows := Option.some.inj (hev.symm.trans hrows)
        rcases List.mem_append.mp he with hw | hw
        · exact Or.inr (sectionWrites_pms_accounted r e hw rows he2)
        · obtain ⟨_, rows2, hdelta⟩ := calcWrites_shape _ e hw
          rw [he2] at hdelta
          exact absurd hdelta (by simp)
  · intro m hm hslug h0 h2 h3 h4 hgw
    have h1 : r.gameweeks_df ≠ [] := by
      intro hc
      rw [hc] at hgw
      exact absurd hgw (by simp)
    have h5 : r.matches_df ≠ [] := List.ne_nil_of_mem hm
    refine ⟨run_byGW_write r fs m.gameweek GwFile.matches _ h1 h2 h3 h4 h5 hgw rfl
      (lastWrite_gwblock_matches r m.gameweek), ?_⟩
    refine List.mem_filter.mpr ⟨?_, by simp⟩
    refine mem_filteredMatches_of r m hm h0 ?_
    rw [hslug]
    exact fun hc => Option.noConfusion hc

def c10Remote : Remote :=
  { gameweeks_df := [{ id := 1, finished := false }]
    players_df := [{ id := 1, val := 0 }]
    playerstats_df := [{ id := 1, gw := 1, names := [], snap := [], cum := [2] }]
    teams_df := [{ id := 1, val := 0 }]
    matches_df := [{ match_id := "unknown-cup-x".data, gameweek := 1, val := 0 },
                   { match_id := "friendly-y".data, gameweek := 1, val := 0 }]
    playermatchstats_df := [] }

/-- C10 witness: from an empty store, a run over one recognized-slug-free
match and one friendly yields pre-season/friendly-free outputs, slug-free
tournament folders, accounted player-match-stats, and keeps the
unrecognized match in the per-gameweek matches file. -/
theorem c10_preseason_exclusion_witness :
    PreseasonFree (runOutput c10Remote emptyStore) ∧
    TourRecognized (runOutput c10Remote emptyStore) ∧
    (getFile emptyStore.files (OutPath.byGW 1 GwFile.playermatchstats)
        = some (TableData.pms []) ∨
      ∀ x ∈ ([] : List PMSRow), ∃ m ∈ filteredMatches c10Remote,
        m.match_id = x.match_id) ∧
    (getFile (runOutput c10Remote emptyStore).files (OutPath.byGW 1 GwFile.matches)
        = some (TableData.matches
            [{ match_id := "unknown-cup-x".data, gameweek := 1, val := 0 }]) ∧
      ({ match_id := "unknown-cup-x".data, gameweek := 1, val := 0 } : MatchRow)
        ∈ [({ match_id := "unknown-cup-x".data, gameweek := 1, val := 0 } : MatchRow)]) :=
  ⟨(c10_preseason_exclusion c10Remote emptyStore).1
      (fun p rows h => Option.noConfusion h),
   (c10_preseason_exclusion c10Remote emptyStore).2.1
      (fun t gw f rows h => Option.noConfusion h),
   (c10_preseason_exclusion c10Remote emptyStore).2.2.1
      (OutPath.byGW 1 GwFile.playermatchstats) [] (by decide),
   (c10_preseason_exclusion c10Remote emptyStore).2.2.2
      { match_id := "unknown-cup-x".data, gameweek := 1, val := 0 }
      (by decide) (by decide) (by decide) (by decide) (by decide) (by decide) (by decide)⟩

/-! ### C5: idempotence of the whole run -/

theorem addDirs_idem {α : Type} [DecidableEq α] (l xs : List α) :
    addDirs (addDirs l xs) xs = addDirs l xs :=
  addDirs_eq_self xs (addDirs l xs) (fun x hx => mem_addDirs_right xs l x hx)

theorem bool_or_or_self (a b : Bool) : ((a || b) || b) = (a || b) := by
  cases a <;> cases b <;> rfl

/-- Extensional equality of stores: the same file contents at every path,
the same directories and the same root flags — i.e. byte-identical
persisted output. -/
def StoreEquiv (a b : Store) : Prop :=
  (∀ p, getFile a.files p = getFile b.files p) ∧
  a.gwDirs = b.gwDirs ∧ a.tourDirs = b.tourDirs ∧
  a.byGwRoot = b.byGwRoot ∧ a.byTourRoot = b.byTourRoot

theorem storeEquiv_refl (a : Store) : StoreEquiv a a :=
  ⟨fun _ => rfl, rfl, rfl, rfl, rfl⟩

/-- Part 1 of the calculation reads only the `By Gameweek` directory list
and the per-gameweek `playerstats.csv` files. -/
theorem part1Writes_congr (a b : Store) (hd : a.gwDirs = b.gwDirs)
    (hf : ∀ g, getFile a.files (OutPath.byGW g GwFile.playerstats)
      = getFile b.files (OutPath.byGW g GwFile.playerstats)) :
    part1Writes a = part1Writes b := by
  unfold part1Writes
  rw [hd]
  apply List.filterMap_congr
  intro e _
  simp only [part1Step, hf]

/-- Part 2 of the calculation reads only the tournament directory list,
the `By Tournament` root flag, and `playerstats.csv` files. -/
theorem part2Writes_congr (a b : Store) (ht : a.tourDirs = b.tourDirs)
    (hr : a.byTourRoot = b.byTourRoot)
    (hf1 : ∀ t g, getFile a.files (OutPath.byTour t g GwFile.playerstats)
      = getFile b.files (OutPath.byTour t g GwFile.playerstats))
    (hf2 : ∀ g, getFile a.files (OutPath.byGW g GwFile.playerstats)
      = getFile b.files (OutPath.byGW g GwFile.playerstats)) :
    part2Writes a = part2Writes b := by
  unfold part2Writes
  rw [ht, hr]
  by_cases hb : b.byTourRoot
  · rw [if_pos hb, if_pos hb]
    apply List.flatMap_congr
    intro t _
    apply List.filterMap_congr
    intro gw _
    simp only [part2Step, hf1, hf2]
  · rw [if_neg hb, if_neg hb]

theorem calcWrites_congr (a b : Store) (hgw : a.gwDirs = b.gwDirs)
    (ht : a.tourDirs = b.tourDirs) (hbg : a.byGwRoot = b.byGwRoot)
    (hbt : a.byTourRoot = b.byTourRoot)
    (hf : ∀ p, isPgw p = false → getFile a.files p = getFile b.files p) :
    calcWrites a = calcWrites b := by
  unfold calcWrites
  rw [hbg]
  by_cases hb : b.byGwRoot
  · rw [if_pos hb, if_pos hb,
      part1Writes_congr a b hgw (fun g => hf _ rfl),
      part2Writes_congr a b ht hbt (fun t g => hf _ rfl) (fun g => hf _ rfl)]
  · rw [if_neg hb, if_neg hb]

/-- C5: running the pipeline twice with identical remote data yields
byte-identical persisted output — the store after the second run equals
the store after the first run at every path, with the same directories,
so the second run introduces no duplicate rows, no reordering and no
row-count growth.  (An aborted run leaves the store untouched, so the
property holds there as well.) -/
theorem c5_run_idempotent (r : Remote) (fs : Store) :
    StoreEquiv (runOutput r (runOutput r fs)) (runOutput r fs) := by
  by_cases hg : (r.gameweeks_df.isEmpty || r.players_df.isEmpty || r.playerstats_df.isEmpty
      || r.teams_df.isEmpty || r.matches_df.isEmpty) = true
  · have h : runOutput r fs = fs := by rw [runOutput, runExport, if_pos hg]
    rw [h, h]
    exact storeEquiv_refl fs
  · simp only [Bool.or_eq_true, List.isEmpty_iff] at hg
    push_neg at hg
    obtain ⟨⟨⟨⟨h1, h2⟩, h3⟩, h4⟩, h5⟩ := hg
    have hrun1 : runOutput r fs = calculate_discrete_gameweek_stats (midStore r fs) :=
      runOutput_eq r fs h1 h2 h3 h4 h5
    rw [hrun1]
    have hrun2 : runOutput r (calculate_discrete_gameweek_stats (midStore r fs))
        = calculate_discrete_gameweek_stats
            (midStore r (calculate_discrete_gameweek_stats (midStore r fs))) :=
      runOutput_eq r _ h1 h2 h3 h4 h5
    rw [hrun2]
    set s1 := calculate_discrete_gameweek_stats (midStore r fs) with hs1
    -- every read the second run performs sees the same value s1 holds
    have hA : ∀ p, getFile (midStore r s1).files p = getFile s1.files p := by
      intro p
      rw [midStore_files, getFile_applyWrites]
      cases hlw : lastWrite p (masterWrites r ++ byTournamentWrites r ++ byGameweekWrites r) with
      | none => rfl
      | some d =>
        obtain ⟨e, he, hep, _⟩ := lastWrite_mem _ _ d hlw
        have hp : isPgw p = false := by
          rw [← hep]
          exact sectionWrites_not_pgw r e he
        have hS1 : getFile s1.files p = some d := by
          rw [hs1, calc_frame _ p hp, midStore_files, getFile_applyWrites, hlw]
        rw [hS1]
    have hgwd : (midStore r s1).gwDirs = s1.gwDirs := by
      rw [midStore_gwDirs, hs1, calc_gwDirs, midStore_gwDirs, addDirs_idem]
    have htd : (midStore r s1).tourDirs = s1.tourDirs := by
      rw [midStore_tourDirs, hs1, calc_tourDirs, midStore_tourDirs, addDirs_idem]
    have hbg : (midStore r s1).byGwRoot = s1.byGwRoot := by
      rw [midStore_byGwRoot, hs1, calc_byGwRoot, midStore_byGwRoot, bool_or_or_self]
    have hbt : (midStore r s1).byTourRoot = s1.byTourRoot := by
      rw [midStore_byTourRoot, hs1, calc_byTourRoot, midStore_byTourRoot, bool_or_or_self]
    have hCW : calcWrites (midStore r s1) = calcWrites (midStore r fs) := by
      apply calcWrites_congr
      · rw [hgwd, hs1, calc_gwDirs]
      · rw [htd, hs1, calc_tourDirs]
      · rw [hbg, hs1, calc_byGwRoot]
      · rw [hbt, hs1, calc_byTourRoot]
      · intro p hp
        rw [hA p, hs1, calc_frame _ p hp]
    refine ⟨?_, ?_, ?_, ?_, ?_⟩
    · intro p
      cases hlw : lastWrite p (calcWrites (midStore r fs)) with
      | some d =>
        have hr2 : getFile (calculate_discrete_gameweek_stats (midStore r s1)).files p
            = some d := by
          rw [calc_files, hCW, getFile_applyWrites, hlw]
        have hl : getFile s1.files p = some d := by
          rw [hs1, calc_files, getFile_applyWrites, hlw]
        rw [hr2, hl]
      | none =>
        have hr2 : getFile (calculate_discrete_gameweek_stats (midStore r s1)).files p
            = getFile (midStore r s1).files p := by
          rw [calc_files, hCW, getFile_applyWrites, hlw]
        rw [hr2]
        exact hA p
    · rw [calc_gwDirs]
      exact hgwd
    · rw [calc_tourDirs]
      exact htd
    · rw [calc_byGwRoot]
      exact hbg
    · rw [calc_byTourRoot]
      exact hbt

end FplExport
